import Mathlib

/-!
# Verification of the autonomous agent core (bubbleAIv3.6)

Shallow embedding of the agent loop (`runAutonomousAgent`), the retry policy
(`generateContentStreamWithRetry`), the SSE reader (`generateOpenRouterStream`),
the tag router, and the search/fetch pipeline
(`runMcpWebSearch`/`fetchContentsForResults`), together with theorems settling
the specification claims.  External network calls (provider streams, search
endpoints, the Jina reader, `JSON.parse`) are modelled as oracle parameters;
every piece of control flow, string manipulation and arithmetic is translated
from the TypeScript source.
-/

namespace BubbleAgent

/-! ## String utilities (JS `includes`, `startsWith`, `trim`, `toLowerCase`) -/

/-- Does `p` occur as a prefix of `s` (lists of characters)? -/
def leadsWith : List Char → List Char → Bool
  | [], _ => true
  | _ :: _, [] => false
  | p :: ps, c :: cs => p = c && leadsWith ps cs

/-- Split `s` at the first occurrence of pattern `pat`, returning the part
before the occurrence and the part after it; `none` when `pat` does not occur. -/
def splitFirstAux (pat : List Char) : List Char → Option (List Char × List Char)
  | [] => if pat = [] then some ([], []) else none
  | c :: cs =>
    if leadsWith pat (c :: cs) then some ([], (c :: cs).drop pat.length)
    else
      match splitFirstAux pat cs with
      | some (b, a) => some (c :: b, a)
      | none => none

/-- JS `String.prototype.includes`. -/
def containsSub (s pat : String) : Bool :=
  (splitFirstAux pat.data s.data).isSome

/-- JS `String.prototype.startsWith`. -/
def startsWithStr (s pat : String) : Bool :=
  leadsWith pat.data s.data

/-- JS whitespace for `trim` (the characters that occur in practice). -/
def isWs (c : Char) : Bool :=
  c = ' ' || c = '\n' || c = '\t' || c = '\r' || c = '\x0b' || c = '\x0c'

/-- JS `String.prototype.trim` on character lists. -/
def jsTrimList (l : List Char) : List Char :=
  ((l.dropWhile isWs).reverse.dropWhile isWs).reverse

/-- JS `String.prototype.trim`. -/
def jsTrim (s : String) : String :=
  String.mk (jsTrimList s.data)

/-- JS `String.prototype.toLowerCase` (ASCII model). -/
def jsToLower (s : String) : String :=
  String.mk (s.data.map Char.toLower)

/-- First-non-null choice, as JS `a || b` / `a.match(r1) || a.match(r2)`. -/
def orElseOpt {α : Type} (a b : Option α) : Option α :=
  match a with
  | some x => some x
  | none => b

/-- JS `s || d` for strings (empty string is falsy). -/
def jsOr (s d : String) : String :=
  if s = "" then d else s

/-! ## Tag extraction (regex `<TAG>([\s\S]*?)</TAG>` and `matchAll`) -/

/-- First match of the non-greedy pattern `openT ([\s\S]*?) closeT`:
the content between the first occurrence of `openT` and the first occurrence
of `closeT` after it. -/
def extractTag (openT closeT s : String) : Option String :=
  match splitFirstAux openT.data s.data with
  | none => none
  | some (_, rest) =>
    match splitFirstAux closeT.data rest with
    | none => none
    | some (content, _) => some (String.mk content)

/-- All successive matches of `openT ([\s\S]*?) closeT` (as JS `matchAll` with
the `g` flag: each scan resumes after the end of the previous full match). -/
def matchAllAux (openT closeT : List Char) : Nat → List Char → List (List Char)
  | 0, _ => []
  | fuel + 1, s =>
    match splitFirstAux openT s with
    | none => []
    | some (_, rest) =>
      match splitFirstAux closeT rest with
      | none => []
      | some (content, after) => content :: matchAllAux openT closeT fuel after

/-- `generatedThisLoop.matchAll(/<SEARCH>([\s\S]*?)<\/SEARCH>/g)`, group 1 of
each match. -/
def matchAllSearch (s : String) : List String :=
  (matchAllAux "<SEARCH>".data "</SEARCH>".data (s.data.length + 1) s.data).map String.mk

/-- The eight closing control tags checked on every streamed delta
(source lines 376-384). -/
def containsClosingTag (s : String) : Bool :=
  containsSub s "</CANVAS_TRIGGER>" ||
  containsSub s "</CANVASTRIGGER>" ||
  containsSub s "</SEARCH>" ||
  containsSub s "</DEEP>" ||
  containsSub s "</IMAGE>" ||
  containsSub s "</PROJECT>" ||
  containsSub s "</CANVAS>" ||
  containsSub s "</STUDY>"

/-! ## Errors and the retry policy (`generateContentStreamWithRetry`) -/

/-- A thrown JavaScript error as the code inspects it: `name`, `message`,
and an optional HTTP `status` field. -/
structure JsError where
  name : String := "Error"
  message : String := ""
  status : Option Nat := none
  deriving DecidableEq, Repr

/-- `new Error("Max retries exceeded")` (source line 95). -/
def maxRetriesError : JsError := { message := "Max retries exceeded" }

/-- `DOMException` with name `AbortError`, raised by an aborted `fetch`. -/
def abortError : JsError := { name := "AbortError", message := "The user aborted a request." }

/-- The model-unavailable test (source line 69):
`error.status === 404 || error.status === 400 || (error.message &&
(error.message.includes('404') || error.message.includes('not found') ||
error.message.includes('Requested entity was not found')))`. -/
def isUnavailableErr (e : JsError) : Bool :=
  e.status = some 404 || e.status = some 400 ||
    (e.message ≠ "" &&
      (containsSub e.message "404" || containsSub e.message "not found" ||
        containsSub e.message "Requested entity was not found"))

/-- The rate-limit test (source lines 81-83):
`error.status === 429 || (error.message && error.message.includes('429')) ||
(error.message && error.message.includes('quota'))`. -/
def isQuotaErr (e : JsError) : Bool :=
  e.status = some 429 ||
    (e.message ≠ "" && containsSub e.message "429") ||
    (e.message ≠ "" && containsSub e.message "quota")

/-- Backoff delay in milliseconds: `Math.pow(2, attempt) * 2000 + 1000`
(source line 86). -/
def backoffDelay (attempt : Nat) : Nat :=
  2 ^ attempt * 2000 + 1000

/-- Fallback notice text (source line 71). -/
def fallbackNotice (model : String) : String :=
  "(Model " ++ model ++ " unavailable. Falling back to Gemini 2.5 Flash...)"

/-- Rate-limit notice text (source line 88); the delay is always a multiple
of 1000 ms so `Math.round(delay/1000)` is exact division. -/
def rateNotice (delay : Nat) : String :=
  "(Rate limit hit. Retrying in " ++ toString (delay / 1000) ++ "s...)"

/-- Observable side effects of one retry run. -/
inductive RetryEv
  | notice (msg : String)
  | wait (ms : Nat)
  deriving DecidableEq, Repr

/-- Per-attempt outcome of `ai.models.generateContentStream(params)`:
either the stream opens or the call rejects with an error. -/
inductive AttemptResult
  | success
  | failure (e : JsError)

/-- Result of a retry run: the resolved model (or the propagated error), the
emitted notices/waits in order, and how many attempts were issued. -/
structure RetryRes where
  out : Except JsError String
  trace : List RetryEv
  consulted : Nat
  deriving Repr

/-- The `for (let attempt = 0; attempt <= retries; attempt++)` loop of
`generateContentStreamWithRetry` (source lines 65-95).  `env attempt model`
is the provider's response to the attempt.  `fuel` counts the remaining
iterations (`retries + 1 - attempt`); running out of fuel is the loop exit,
which throws `Max retries exceeded`. -/
def retryAux (env : Nat → String → AttemptResult) (retries : Nat) :
    Nat → Nat → String → List RetryEv → Nat → RetryRes
  | 0, _, _, tr, used => ⟨.error maxRetriesError, tr, used⟩
  | fuel + 1, attempt, model, tr, used =>
    match env attempt model with
    | .success => ⟨.ok model, tr, used + 1⟩
    | .failure e =>
      if isUnavailableErr e then
        let tr1 := tr ++ [.notice (fallbackNotice model)]
        if model = "gemini-2.5-flash" then ⟨.error e, tr1, used + 1⟩
        else retryAux env retries fuel (attempt + 1) "gemini-2.5-flash" tr1 (used + 1)
      else if isQuotaErr e && attempt < retries then
        let d := backoffDelay attempt
        retryAux env retries fuel (attempt + 1) model
          (tr ++ [.notice (rateNotice d), .wait d]) (used + 1)
      else ⟨.error e, tr, used + 1⟩

/-- `generateContentStreamWithRetry` (source lines 54-96) with the default
`retries = 3`, including the empty-model default (lines 60-63). -/
def generateContentStreamWithRetry (env : Nat → String → AttemptResult)
    (model : String) : RetryRes :=
  let m := if model = "" then "gemini-2.5-flash" else model
  retryAux env 3 4 0 m [] 0

/-! ## SSE reader (`generateOpenRouterStream`, source lines 98-156) -/

/-- Prepend a fragment to the first line of a split. -/
def glueHead (pre : List Char) : List (List Char) → List (List Char)
  | [] => [pre]
  | h :: t => (pre ++ h) :: t

/-- The last element of a list of fragments (`lines.pop() || ""`). -/
def lastFrag : List (List Char) → List Char
  | [] => []
  | [x] => x
  | _ :: x :: t => lastFrag (x :: t)

/-- Split a character list on `'\n'` (JS `buffer.split('\n')`); always
non-empty. -/
def splitNlList : List Char → List (List Char)
  | [] => [[]]
  | c :: cs =>
    if c = '\n' then [] :: splitNlList cs
    else glueHead [c] (splitNlList cs)

/-- JS `s.split('\n')`. -/
def splitNl (s : String) : List String :=
  (splitNlList s.data).map String.mk

/-- What one complete SSE line does.  `parse` models `JSON.parse` followed by
`json.choices?.[0]?.delta?.content`: `none` means `JSON.parse` threw
(malformed line, skipped with a log); `some none` means it parsed but the
optional chain produced no (or a falsy) content; `some (some c)` means
content `c` was extracted. -/
inductive LineStep
  | skip
  | emit (c : String)
  | stop
  deriving DecidableEq, Repr

/-- Per-line handling (source lines 141-153). -/
def processLine (parse : String → Option (Option String)) (line : String) : LineStep :=
  let trimmed := jsTrim line
  if startsWithStr trimmed "data: " then
    let dataStr := trimmed.drop 6
    if dataStr = "[DONE]" then .stop
    else
      match parse dataStr with
      | none => .skip
      | some none => .skip
      | some (some c) => if c = "" then .skip else .emit c
  else .skip

/-- Process a batch of complete lines, collecting emitted contents and
reporting whether `[DONE]` terminated the stream. -/
def processLines (parse : String → Option (Option String)) :
    List String → List String × Bool
  | [] => ([], false)
  | l :: ls =>
    match processLine parse l with
    | .stop => ([], true)
    | .emit c =>
      let r := processLines parse ls
      (c :: r.1, r.2)
    | .skip => processLines parse ls

/-- The read loop (source lines 133-155) over decoded character chunks:
append the decoded chunk to the buffer, split on newlines, keep the trailing
fragment as the new buffer (`buffer = lines.pop()`), process the complete
lines; `[DONE]` returns immediately. -/
def sseRunL (parse : String → Option (Option String)) :
    List (List Char) → List Char → List String
  | [], _ => []
  | chunk :: rest, buf =>
    if (processLines parse ((splitNlList (buf ++ chunk)).dropLast.map String.mk)).2 then
      (processLines parse ((splitNlList (buf ++ chunk)).dropLast.map String.mk)).1
    else
      (processLines parse ((splitNlList (buf ++ chunk)).dropLast.map String.mk)).1 ++
        sseRunL parse rest (lastFrag (splitNlList (buf ++ chunk)))

/-- The read loop on string chunks. -/
def sseRun (parse : String → Option (Option String))
    (chunks : List String) (buf : String) : List String :=
  sseRunL parse (chunks.map String.data) buf.data

/-- The HTTP response as `generateOpenRouterStream` observes it. -/
structure OrResponse where
  ok : Bool
  status : Nat
  body : String
  hasBody : Bool := true
  chunks : List String

/-- `generateOpenRouterStream` (source lines 98-156): non-2xx fails with
status and body; otherwise the SSE read loop runs and the emitted contents
are delivered to the chunk sink in order. -/
def generateOpenRouterStream (parse : String → Option (Option String))
    (resp : OrResponse) : Except JsError (List String) :=
  if !resp.ok then
    .error { message := "OpenRouter Error " ++ toString resp.status ++ ": " ++ resp.body }
  else if !resp.hasBody then
    .error { message := "No response body from OpenRouter" }
  else
    .ok (sseRun parse resp.chunks "")

/-! ## External search service (source file `externalSearchService.ts`) -/

/-- `WebSearchResult` (part_002 lines 3-8). -/
structure Page where
  title : String
  url : String
  snippet : Option String := none
  content : Option String := none
  deriving DecidableEq, Repr

/-- The keyword list of `shouldUseExternalSearch` (part_002 lines 22-38). -/
def searchKeywords : List String :=
  ["search online", "search the web", "browse", "look this up",
   "check the internet", "check online", "latest", "today", "news", "price",
   "online result", "on the net", "reference", "inspiration", "find info",
   "current"]

/-- `shouldUseExternalSearch` (part_002 lines 16-41). -/
def shouldUseExternalSearch (userMessage : String)
    (modelSupportsSearch hasSearchTag : Bool) : Bool :=
  if modelSupportsSearch then false
  else
    let lower := jsToLower userMessage
    searchKeywords.any (fun k => containsSub lower k) || hasSearchTag

/-- The `TypeError` raised when `shouldUseExternalSearch` is called with
`queries[0]` equal to `undefined` (agent line 442 when every extracted query
trimmed to the empty string). -/
def typeErrorUndefined : JsError :=
  { name := "TypeError",
    message := "Cannot read properties of undefined (reading 'toLowerCase')" }

/-- `shouldUseExternalSearch` as invoked on a possibly-`undefined` message:
with `modelSupportsSearch` true it returns before touching the message,
otherwise an `undefined` message raises a `TypeError`. -/
def shouldUseExternalSearchU (userMessage : Option String)
    (modelSupportsSearch hasSearchTag : Bool) : Except JsError Bool :=
  if modelSupportsSearch then .ok false
  else
    match userMessage with
    | none => .error typeErrorUndefined
    | some m => .ok (shouldUseExternalSearch m modelSupportsSearch hasSearchTag)

/-- `fetchContentsForResults` (part_002 lines 136-161).  `jina` models
`fetchPageContentWithJina` (which never rejects: it returns `""` on any
failure, so every settled promise is fulfilled); `timedOut` tells which side
of the `Promise.race` against the fixed 8000 ms timeout won.  On timeout the
first `limit` input results are returned unchanged; otherwise each content is
truncated to 15000 characters and pages whose trimmed content is not longer
than 50 characters are dropped. -/
def fetchContentsForResults (jina : String → String) (timedOut : Bool)
    (results : List Page) (limit : Nat) : List Page :=
  let top := results.take limit
  if timedOut then top
  else
    (top.map (fun r => { r with content := some ((jina r.url).take 15000) })).filter
      (fun r =>
        match r.content with
        | some c => c ≠ "" && (jsTrim c).length > 50
        | none => false)

/-! ## Batch search inside the loop (agent lines 437-482) -/

/-- A `{ web: { uri, title } }` grounding record. -/
structure Citation where
  uri : String
  title : String
  deriving DecidableEq, Repr

/-- Environment of one query of the batch: whether the
`runMcpWebSearch`/`fetchContentsForResults` pair threw (caught per query,
line 449), the search results, the Jina oracle and the timeout flag. -/
structure QueryEnv where
  failed : Bool
  results : List Page
  jina : String → String
  timedOut : Bool

/-- Pages obtained for one query (lines 445-451): a failed query yields the
empty page list. -/
def pagesOf (qe : QueryEnv) : List Page :=
  if qe.failed then [] else fetchContentsForResults qe.jina qe.timedOut qe.results 20

/-- The queries extracted from the segment (line 440): group 1 of each
`<SEARCH>` match, trimmed, empties discarded. -/
def batchQueries (gen : String) : List String :=
  ((matchAllSearch gen).map jsTrim).filter (fun q => q ≠ "")

/-- One numbered result line of the aggregated context (line 465); JS
template literals render a missing `content` as the string `"undefined"`. -/
def pageLine (i : Nat) (p : Page) : String :=
  "[" ++ toString (i + 1) ++ "] " ++ p.title ++ " (" ++ p.url ++ "):\n" ++
    p.content.getD "undefined"

/-- The per-query block of the aggregated context (lines 464-465). -/
def queryBlock (q : String) (pages : List Page) : String :=
  "\n\n=== WEB RESULTS FOR QUERY: \"" ++ q ++ "\" ===\n" ++
    String.intercalate "\n\n" (pages.mapIdx pageLine)

/-- The synthesis prompt (line 475). -/
def synthesisPrompt (origPrompt : String) (queries : List String)
    (ctx : String) : String :=
  "USER ORIGINALLY ASKED: " ++ origPrompt ++
    "\n\nI have performed the following searches based on my previous thought process:\n" ++
    String.intercalate "\n" (queries.map (fun q => "- " ++ q)) ++
    "\n\nSEARCH CONTEXT:\n" ++ ctx ++
    "\n\nINSTRUCTIONS: Synthesize a comprehensive answer to the user's original query using this search data. Cite sources using [1], [2] format. Do NOT repeat the <SEARCH> tags."

/-- Outcome of the batch-search block. -/
inductive BatchOutcome
  | notRun
  | ran (meta : List Citation) (ctx : String) (synth : String)
  | threw (e : JsError)
  deriving DecidableEq, Repr

/-- `parallelResults` filtered to the queries with at least one page
(agent lines 443-455): the per-query validity test is `pages.length > 0`. -/
def validResults (gen : String) (qe : String → QueryEnv) :
    List (String × List Page) :=
  ((batchQueries gen).map (fun q => (q, pagesOf (qe q)))).filter
    (fun r => r.2.length > 0)

/-- The `{url, title}` citation records contributed by the valid queries
(agent lines 458-462). -/
def batchMeta (gen : String) (qe : String → QueryEnv) : List Citation :=
  (validResults gen qe).flatMap
    (fun r => r.2.map (fun p => ({ uri := p.url, title := p.title } : Citation)))

/-- The aggregated per-query-labeled context (agent lines 459-466). -/
def batchCtx (gen : String) (qe : String → QueryEnv) : String :=
  String.join ((validResults gen qe).map (fun r => queryBlock r.1 r.2))

/-- The batch-search block (agent lines 437-482): extract the queries, test
eligibility on `queries[0]`, fan out, keep the queries with at least one
page, and on success build the citation records, the aggregated context and
the synthesis prompt. -/
def runBatch (origPrompt : String) (mss : Bool) (gen : String)
    (qe : String → QueryEnv) : BatchOutcome :=
  if (matchAllSearch gen).length > 0 then
    match shouldUseExternalSearchU (batchQueries gen).head? mss true with
    | .error e => .threw e
    | .ok false => .notRun
    | .ok true =>
      if (validResults gen qe).length > 0 then
        .ran (batchMeta gen qe) (batchCtx gen qe)
          (synthesisPrompt origPrompt (batchQueries gen) (batchCtx gen qe))
      else .notRun
  else .notRun

/-! ## Tag routing after the batch check (agent lines 484-512) -/

inductive RouterAction
  | SIMPLE
  | SEARCH
  | DEEP_SEARCH
  | IMAGE
  | PROJECT
  | CANVAS
  | STUDY
  deriving DecidableEq, Repr

/-- JS truthiness of `match && match[1]`. -/
def truthy : Option String → Bool
  | some s => s ≠ ""
  | none => false

inductive RouteResult
  | go (action : RouterAction) (prompt : String)
  | done
  deriving DecidableEq, Repr

/-- The fixed-priority tag routing that runs when the batch block took no
action (lines 484-505 and the fall-through return): `DEEP`, then a single
`SEARCH` when no batch ever ran (`fallbackSearchContext` still empty), then
`IMAGE`, `PROJECT`, `CANVAS_TRIGGER`/`CANVAS`, `STUDY`; with no tag the loop
returns. -/
def routeAfterBatch (gen fallbackCtx : String) : RouteResult :=
  let ms := matchAllSearch gen
  let deep := extractTag "<DEEP>" "</DEEP>" gen
  let image := extractTag "<IMAGE>" "</IMAGE>" gen
  let project := extractTag "<PROJECT>" "</PROJECT>" gen
  let canvas := orElseOpt (extractTag "<CANVAS_TRIGGER>" "</CANVAS_TRIGGER>" gen)
    (orElseOpt (extractTag "<CANVAS_TRIGGER>" "</CANVASTRIGGER>" gen)
      (extractTag "<CANVAS>" "</CANVAS>" gen))
  let study := extractTag "<STUDY>" "</STUDY>" gen
  if truthy deep then .go .DEEP_SEARCH (deep.getD "")
  else if ms.length = 1 && fallbackCtx = "" then .go .SEARCH (ms.headD "")
  else if truthy image then .go .IMAGE (image.getD "")
  else if truthy project then .go .PROJECT (project.getD "")
  else if truthy canvas then .go .CANVAS (canvas.getD "")
  else if truthy study then .go .STUDY (study.getD "")
  else .done

/-! ## The agent loop (`runAutonomousAgent`, agent lines 158-527)

Cooperative cancellation is linearized: the single-threaded run performs
abort checks in a fixed order (top of loop, then one per chunk), each check
ticking a clock; `abortAt = some k` means the token is in the fired state at
every check from tick `k` on (firing is monotone).  The snapshot field
records `finalResponseText` at the first check that observes the fired
token. -/

/-- Whether `signal?.aborted` reads true at clock `t`. -/
def abortedAt (a : Option Nat) (t : Nat) : Bool :=
  match a with
  | none => false
  | some k => decide (k ≤ t)

/-- One chunk of the native (Gemini) stream: its `text` and the grounding
chunks attached to its first candidate. -/
structure NativeChunk where
  text : String
  cites : List Citation
  deriving Repr

/-- Result of consuming one iteration's stream. -/
structure ConsumeRes where
  gen : String
  final : String
  meta : List Citation
  t : Nat
  snap : Option String
  err : Option JsError
  deriving Repr

/-- The native `for await` loop (agent lines 361-388): per chunk, check the
token (break when fired), skip falsy chunk text, append the text to the
iteration buffer and the final text, collect grounding chunks, and break as
soon as the buffer contains a closing control tag.  `errEnd` is an error the
generator raises after its chunks (it surfaces only when the loop is not
broken first). -/
def consumeNative (a : Option Nat) :
    List NativeChunk → Option JsError → String → String → List Citation →
      Nat → Option String → ConsumeRes
  | [], errEnd, gen, final, meta, t, snap => ⟨gen, final, meta, t, snap, errEnd⟩
  | ch :: rest, errEnd, gen, final, meta, t, snap =>
    if abortedAt a t then
      ⟨gen, final, meta, t + 1, orElseOpt snap (some final), none⟩
    else if ch.text = "" then
      consumeNative a rest errEnd gen final meta (t + 1) snap
    else
      let gen2 := gen ++ ch.text
      let final2 := final ++ ch.text
      let meta2 := meta ++ ch.cites
      if containsClosingTag gen2 then ⟨gen2, final2, meta2, t + 1, snap, none⟩
      else consumeNative a rest errEnd gen2 final2 meta2 (t + 1) snap

/-- The OpenRouter chunk sink (agent lines 429-434) composed with the
aborted transport: each delivered delta is appended unconditionally (the
callback has no tag check); once the token fires, the callback drops deltas
and the aborted `fetch` makes the next read reject with `AbortError`. -/
def consumeOR (a : Option Nat) :
    List String → Option JsError → String → String → List Citation →
      Nat → Option String → ConsumeRes
  | [], errEnd, gen, final, meta, t, snap => ⟨gen, final, meta, t, snap, errEnd⟩
  | d :: rest, errEnd, gen, final, meta, t, snap =>
    if abortedAt a t then
      ⟨gen, final, meta, t + 1, orElseOpt snap (some final), some abortError⟩
    else consumeOR a rest errEnd (gen ++ d) (final ++ d) meta (t + 1) snap

/-- One iteration's stream as the environment delivers it: the chunks, then
an optional error the stream raises after them. -/
structure IterStream where
  chunks : List NativeChunk
  err : Option JsError := none

/-- The external world of one `runAutonomousAgent` invocation. -/
structure AgentEnv where
  streams : Nat → IterStream
  query : Nat → String → QueryEnv
  preResults : List Page
  preJina : String → String
  preTimedOut : Bool
  abortAt : Option Nat
  cleanup : JsError → String

/-- The loop state (`currentAction`, `currentPrompt`, `finalResponseText`,
`metadataPayload.groundingMetadata`, `fallbackSearchContext`, the abort
clock and snapshot, and `loopCount`). -/
structure LoopState where
  action : RouterAction
  prompt : String
  final : String
  meta : List Citation
  fallbackCtx : String
  t : Nat
  snap : Option String
  iters : Nat

/-- How the `try` body ends: a `return` with text and citations, or a thrown
error together with the value of `finalResponseText` at the throw. -/
inductive BodyOut
  | ret (text : String) (meta : List Citation)
  | thr (e : JsError) (finalAtThrow : String)
  deriving Repr

structure LoopRes where
  out : BodyOut
  t : Nat
  snap : Option String
  iters : Nat

/-- The streaming part of one iteration: the backend chosen by `native`
consumes its deltas into a fresh `generatedThisLoop` buffer, the shared
`finalResponseText`, the metadata list and the abort clock. -/
def iterConsume (env : AgentEnv) (native : Bool) (st : LoopState) : ConsumeRes :=
  if native then
    consumeNative env.abortAt (env.streams st.iters).chunks (env.streams st.iters).err
      "" st.final st.meta (st.t + 1) st.snap
  else
    consumeOR env.abortAt ((env.streams st.iters).chunks.map NativeChunk.text)
      (env.streams st.iters).err "" st.final st.meta (st.t + 1) st.snap

/-- The `while (loopCount < MAX_LOOPS)` loop (agent lines 302-515).  `fuel`
is `MAX_LOOPS - loopCount`; every `RouterAction` value executes the one
`SIMPLE`/`default` switch arm.  Per iteration: token check, `loopCount++`,
stream via the backend chosen by `native`, then the batch-search block and
the fixed-priority tag routing; with no tag the loop returns (using the raw
aggregated search context as a last resort only when the final text is
whitespace). -/
def loopAux (env : AgentEnv) (native mss : Bool) (origPrompt : String) :
    Nat → LoopState → LoopRes
  | 0, st => ⟨.ret st.final st.meta, st.t, st.snap, st.iters⟩
  | fuel + 1, st =>
    if abortedAt env.abortAt st.t then
      ⟨.ret st.final st.meta, st.t + 1, orElseOpt st.snap (some st.final), st.iters⟩
    else
      match (iterConsume env native st).err with
      | some e =>
        ⟨.thr e (iterConsume env native st).final, (iterConsume env native st).t,
          (iterConsume env native st).snap, st.iters + 1⟩
      | none =>
        match runBatch origPrompt mss (iterConsume env native st).gen (env.query st.iters) with
        | .threw e =>
          ⟨.thr e (iterConsume env native st).final, (iterConsume env native st).t,
            (iterConsume env native st).snap, st.iters + 1⟩
        | .ran bmeta ctx synth =>
          loopAux env native mss origPrompt fuel
            { action := .SIMPLE, prompt := synth,
              final := (iterConsume env native st).final,
              meta := (iterConsume env native st).meta ++ bmeta, fallbackCtx := ctx,
              t := (iterConsume env native st).t,
              snap := (iterConsume env native st).snap, iters := st.iters + 1 }
        | .notRun =>
          match routeAfterBatch (iterConsume env native st).gen st.fallbackCtx with
          | .go a p =>
            loopAux env native mss origPrompt fuel
              { action := a, prompt := p,
                final := (iterConsume env native st).final,
                meta := (iterConsume env native st).meta,
                fallbackCtx := st.fallbackCtx, t := (iterConsume env native st).t,
                snap := (iterConsume env native st).snap, iters := st.iters + 1 }
          | .done =>
            ⟨.ret
              (if jsTrim (iterConsume env native st).final = "" && st.fallbackCtx ≠ ""
                then st.fallbackCtx else (iterConsume env native st).final)
              (iterConsume env native st).meta,
              (iterConsume env native st).t, (iterConsume env native st).snap,
              st.iters + 1⟩

/-- An output record of `AgentExecutionResult` (text and grounding list). -/
structure AgentResult where
  text : String
  cites : List Citation
  deriving DecidableEq, Repr

/-- The run result plus the instrumentation the theorems talk about. -/
structure RunStats where
  result : AgentResult
  bodyOut : BodyOut
  iters : Nat
  snap : Option String

/-- `isGoogleModel` (agent lines 26-30). -/
def isGoogleModel (model : String) : Bool :=
  if model = "" then true
  else
    let lower := jsToLower model
    startsWithStr lower "gemini" || startsWithStr lower "veo" ||
      containsSub lower "google"

/-- `modelSupportsSearch` (agent line 232). -/
def modelSupportsSearch (model : String) : Bool :=
  isGoogleModel model || containsSub model "perplexity"

/-- The pre-loop external search block (agent lines 241-273): when the
eligibility test fires, a `<SEARCH>prompt</SEARCH>` tag is emitted and
appended to the final text, and a successful search contributes one citation
per fetched page.  Returns the initial `finalResponseText` and citation
list. -/
def preSearch (env : AgentEnv) (model prompt : String) : String × List Citation :=
  if shouldUseExternalSearch prompt (modelSupportsSearch model) false then
    if env.preResults.length > 0 then
      ("<SEARCH>" ++ prompt ++ "</SEARCH>",
        (fetchContentsForResults env.preJina env.preTimedOut env.preResults 15).map
          (fun p => ({ uri := p.url, title := p.title } : Citation)))
    else ("<SEARCH>" ++ prompt ++ "</SEARCH>", [])
  else ("", [])

/-- The loop state at entry (agent lines 294-300). -/
def initialState (env : AgentEnv) (model prompt : String)
    (initAction : RouterAction) : LoopState :=
  { action := initAction, prompt := prompt,
    final := (preSearch env model prompt).1, meta := (preSearch env model prompt).2,
    fallbackCtx := "", t := 0, snap := none, iters := 0 }

/-- The top `catch` (agent lines 519-526): `AbortError` yields the
accumulated text or the stopped-by-user placeholder; any other error yields
one `An error occurred: ` message (kept verbatim for OpenRouter errors,
cleaned by `getUserFriendlyError` otherwise); both without metadata. -/
def finishRun (env : AgentEnv) (r : LoopRes) : RunStats :=
  match r.out with
  | .ret text meta => ⟨⟨text, meta⟩, r.out, r.iters, r.snap⟩
  | .thr e finalT =>
    if e.name = "AbortError" then
      ⟨⟨jsOr finalT "(Generation stopped by user)", []⟩, r.out, r.iters, r.snap⟩
    else
      ⟨⟨"An error occurred: " ++
          (if e.message ≠ "" && containsSub e.message "OpenRouter" then e.message
            else env.cleanup e), []⟩, r.out, r.iters, r.snap⟩

/-- The non-instant body of `runAutonomousAgent` (agent lines 229-526) for a
resolved `model`: backend classification (line 202/232), the pre-loop
external search block, the bounded loop, and the top `catch`. -/
def runAgentMain (env : AgentEnv) (model prompt : String)
    (initAction : RouterAction) : RunStats :=
  finishRun env
    (loopAux env (isGoogleModel model) (modelSupportsSearch model) prompt 6
      (initialState env model prompt initAction))

inductive ThinkingMode
  | instant
  | think
  | deep
  | normal
  deriving DecidableEq, Repr

/-- The observable slice of `AgentInput`. -/
structure AgentInput where
  prompt : String
  model : String
  thinkingMode : ThinkingMode
  openRouterKey : Option String := none
  preferredDeepModel : Option String := none

/-- Model normalization before the loop (agent lines 198-227): default an
empty model, fall back to Gemini when a non-Google model has no OpenRouter
key, apply the think/deep overrides, and force the thinking-compatible model
when a thinking budget is set. -/
def resolveModel (input : AgentInput) : String :=
  let model0 := if jsTrim input.model = "" then "gemini-2.5-flash" else input.model
  let model1 :=
    if !isGoogleModel model0 && input.openRouterKey = none then "gemini-2.5-flash"
    else model0
  let stage :=
    match input.thinkingMode with
    | .deep => (jsOr ((input.preferredDeepModel).getD "") "gemini-3-pro-preview", 8192)
    | .think => ("gemini-2.5-flash", 2048)
    | _ => (model1, 0)
  if stage.2 > 0 && isGoogleModel stage.1 && !containsSub stage.1 "gemini-2.5" &&
      !containsSub stage.1 "gemini-3" then
    "gemini-2.5-flash"
  else stage.1

/-- `runAutonomousAgent` (agent lines 158-527).  `instant` is the outcome of
`generateFreeCompletion` (the free-LLM service, external to this core): in
instant mode a failure of that call is rethrown as
`Instant mode service unavailable.` (lines 192-195), the only error the
caller can observe as a rejection; every other mode runs the caught main
body. -/
def runAutonomousAgent (env : AgentEnv) (instant : Except JsError String)
    (input : AgentInput) (initAction : RouterAction) : Except JsError RunStats :=
  if input.thinkingMode = .instant then
    match instant with
    | .ok text => .ok ⟨⟨text, []⟩, .ret text [], 0, none⟩
    | .error _ => .error { message := "Instant mode service unavailable." }
  else
    .ok (runAgentMain env (resolveModel input) input.prompt initAction)

/-! ## Retry policy lemmas and claims C4, C5 -/

/-- A 404 rejection with no message. -/
def err404 : JsError := { status := some 404 }

/-- A plain quota rejection. -/
def errQuota : JsError := { status := some 429, message := "quota" }

/-- A rejection that is rate-limit-class (status 429) and at the same time
matches the model-unavailable message test (`"not found"`). -/
def errQuotaNotFound : JsError := { status := some 429, message := "quota not found" }

theorem retryAux_consulted_le {env : Nat → String → AttemptResult} {r : Nat} :
    ∀ fuel a m tr u, u ≤ (retryAux env r fuel a m tr u).consulted := by
  intro fuel
  induction fuel with
  | zero => intro a m tr u; simp [retryAux]
  | succ f ih =>
    intro a m tr u
    simp only [retryAux]
    cases env a m with
    | success => simp
    | failure e =>
      by_cases h1 : isUnavailableErr e = true
      · simp only [h1, if_true]
        by_cases h2 : m = "gemini-2.5-flash"
        · simp [h2]
        · simp only [h2, if_false]
          exact le_trans (Nat.le_succ u) (ih _ _ _ _)
      · simp only [Bool.not_eq_true] at h1
        simp only [h1, Bool.false_eq_true, if_false]
        by_cases h2 : (isQuotaErr e && decide (a < r)) = true
        · simp only [h2, if_true]
          exact le_trans (Nat.le_succ u) (ih _ _ _ _)
        · simp only [h2]
          simp

theorem retryAux_consults {env : Nat → String → AttemptResult} {r : Nat} :
    ∀ fuel a m tr u, u + 1 ≤ (retryAux env r (fuel + 1) a m tr u).consulted := by
  intro fuel a m tr u
  simp only [retryAux]
  cases env a m with
  | success => simp
  | failure e =>
    by_cases h1 : isUnavailableErr e = true
    · simp only [h1, if_true]
      by_cases h2 : m = "gemini-2.5-flash"
      · simp [h2]
      · simp only [h2, if_false]
        exact retryAux_consulted_le fuel _ _ _ _
    · simp only [Bool.not_eq_true] at h1
      simp only [h1, Bool.false_eq_true, if_false]
      by_cases h2 : (isQuotaErr e && decide (a < r)) = true
      · simp only [h2, if_true]
        exact retryAux_consulted_le fuel _ _ _ _
      · simp only [h2]
        simp

/-- **C4** (amended).  For any attempt of `generateContentStreamWithRetry`
that rejects with a model-unavailable-class error (status 404/400 or a
message matching `not found` / `Requested entity was not found`):
(a) the code classifies every such error as model-unavailable;
(b) if the current model already equals the fallback `gemini-2.5-flash`, the
very same error is rethrown after the notice, with no further attempt;
(c) otherwise the fallback notice is emitted through `onRetry`, the model is
switched to `gemini-2.5-flash`, and — provided the failing attempt was not
the final one — the request is retried (at least one further attempt is
issued). -/
theorem c4_model_fallback :
    (∀ e : JsError,
      (e.status = some 404 ∨ e.status = some 400 ∨
        (e.message ≠ "" ∧ (containsSub e.message "not found" = true ∨
          containsSub e.message "Requested entity was not found" = true))) →
      isUnavailableErr e = true) ∧
    (∀ (env : Nat → String → AttemptResult) (fuel a u : Nat)
        (tr : List RetryEv) (e : JsError),
      env a "gemini-2.5-flash" = .failure e → isUnavailableErr e = true →
      retryAux env 3 (fuel + 1) a "gemini-2.5-flash" tr u =
        ⟨.error e, tr ++ [.notice (fallbackNotice "gemini-2.5-flash")], u + 1⟩) ∧
    (∀ (env : Nat → String → AttemptResult) (fuel a u : Nat)
        (tr : List RetryEv) (m : String) (e : JsError),
      env a m = .failure e → isUnavailableErr e = true →
      m ≠ "gemini-2.5-flash" →
      retryAux env 3 (fuel + 1) a m tr u =
        retryAux env 3 fuel (a + 1) "gemini-2.5-flash"
          (tr ++ [.notice (fallbackNotice m)]) (u + 1) ∧
      u + 2 ≤ (retryAux env 3 (fuel + 2) a m tr u).consulted) := by
  refine ⟨?_, ?_, ?_⟩
  · intro e h
    unfold isUnavailableErr
    rcases h with h | h | ⟨hm, h⟩
    · simp [h]
    · simp [h]
    · rcases h with h | h <;> simp [hm, h]
  · intro env fuel a u tr e henv hun
    simp [retryAux, henv, hun]
  · intro env fuel a u tr m e henv hun hm
    constructor
    · simp [retryAux, henv, hun, hm]
    · have hstep : retryAux env 3 (fuel + 1 + 1) a m tr u =
          retryAux env 3 (fuel + 1) (a + 1) "gemini-2.5-flash"
            (tr ++ [.notice (fallbackNotice m)]) (u + 1) := by
        simp [retryAux, henv, hun, hm]
      rw [hstep]
      exact retryAux_consults fuel _ _ _ _

/-- Witness for C4: a model `foo` that 404s is substituted by the fallback
and retried; when the fallback itself 404s the 404 is rethrown. -/
theorem c4_model_fallback_witness :
    retryAux (fun _ _ => .failure err404) 3 4 0 "foo" [] 0 =
      retryAux (fun _ _ => .failure err404) 3 3 1 "gemini-2.5-flash"
        [.notice (fallbackNotice "foo")] 1 ∧
    retryAux (fun _ _ => .failure err404) 3 3 1 "gemini-2.5-flash"
      [.notice (fallbackNotice "foo")] 1 =
      ⟨.error err404,
        [.notice (fallbackNotice "foo"), .notice (fallbackNotice "gemini-2.5-flash")], 2⟩ := by
  constructor
  · exact ((c4_model_fallback.2.2 (fun _ _ => .failure err404) 3 0 0 [] "foo" err404
      rfl (by decide) (by decide)).1)
  · have h := c4_model_fallback.2.1 (fun _ _ => .failure err404) 2 1 1
      [.notice (fallbackNotice "foo")] err404 rfl (by decide)
    simpa using h

/-- **C4 counterexample.**  The claim says an unavailable-class failure on a
non-fallback model is always followed by a retry; but when it happens on the
final attempt (attempt 3, reached here after three quota backoffs), the model
is switched and the loop exits: exactly 4 attempts are issued and the call
rejects with `Max retries exceeded` — no retried request. -/
theorem c4_counterexample :
    isUnavailableErr err404 = true ∧ ("foo" : String) ≠ "gemini-2.5-flash" ∧
    (generateContentStreamWithRetry
      (fun a _ => if a < 3 then .failure errQuota else .failure err404) "foo").consulted = 4 ∧
    (generateContentStreamWithRetry
      (fun a _ => if a < 3 then .failure errQuota else .failure err404) "foo").out =
      .error maxRetriesError := by
  refine ⟨by decide, by decide, rfl, rfl⟩

/-- **C5** (amended).  In `generateContentStreamWithRetry`, a
rate-limit-class rejection (status 429, or a message containing `429` or
`quota`) that does not also match the model-unavailable test, at attempt
`a < 3`, waits exactly `2^a * 2000 + 1000` ms — 3000, 5000, 9000 ms for
attempts 0, 1, 2 — and retries the same model; the same rejection at attempt
3, or any rejection matching neither class, is propagated unchanged. -/
theorem c5_backoff :
    (∀ a, backoffDelay a = 2 ^ a * 2000 + 1000) ∧
    backoffDelay 0 = 3000 ∧ backoffDelay 1 = 5000 ∧ backoffDelay 2 = 9000 ∧
    (∀ (env : Nat → String → AttemptResult) (fuel a u : Nat)
        (tr : List RetryEv) (m : String) (e : JsError),
      env a m = .failure e → isQuotaErr e = true → isUnavailableErr e = false →
      a < 3 →
      retryAux env 3 (fuel + 1) a m tr u =
        retryAux env 3 fuel (a + 1) m
          (tr ++ [.notice (rateNotice (backoffDelay a)), .wait (backoffDelay a)])
          (u + 1)) ∧
    (∀ (env : Nat → String → AttemptResult) (fuel u : Nat)
        (tr : List RetryEv) (m : String) (e : JsError),
      env 3 m = .failure e → isQuotaErr e = true → isUnavailableErr e = false →
      retryAux env 3 (fuel + 1) 3 m tr u = ⟨.error e, tr, u + 1⟩) ∧
    (∀ (env : Nat → String → AttemptResult) (fuel a u : Nat)
        (tr : List RetryEv) (m : String) (e : JsError),
      env a m = .failure e → isQuotaErr e = false → isUnavailableErr e = false →
      retryAux env 3 (fuel + 1) a m tr u = ⟨.error e, tr, u + 1⟩) := by
  refine ⟨fun a => rfl, rfl, rfl, rfl, ?_, ?_, ?_⟩
  · intro env fuel a u tr m e henv hq hun ha
    simp [retryAux, henv, hq, hun, ha]
  · intro env fuel u tr m e henv hq hun
    simp [retryAux, henv, hq, hun]
  · intro env fuel a u tr m e henv hq hun
    simp [retryAux, henv, hq, hun]

/-- Witness for C5: a persistent plain quota error produces waits of exactly
3000, 5000 and 9000 ms and is then propagated unchanged after the fourth
attempt. -/
theorem c5_backoff_witness :
    retryAux (fun _ _ => .failure errQuota) 3 4 0 "foo" [] 0 =
      retryAux (fun _ _ => .failure errQuota) 3 3 1 "foo"
        [.notice (rateNotice 3000), .wait 3000] 1 ∧
    retryAux (fun _ _ => .failure errQuota) 3 1 3 "foo"
      [.notice (rateNotice 3000), .wait 3000, .notice (rateNotice 5000), .wait 5000,
        .notice (rateNotice 9000), .wait 9000] 3 =
      ⟨.error errQuota,
        [.notice (rateNotice 3000), .wait 3000, .notice (rateNotice 5000), .wait 5000,
          .notice (rateNotice 9000), .wait 9000], 4⟩ := by
  constructor
  · have h := c5_backoff.2.2.2.2.1 (fun _ _ => .failure errQuota) 3 0 0 [] "foo" errQuota
      rfl (by decide) (by decide) (by decide)
    simpa [backoffDelay] using h
  · exact c5_backoff.2.2.2.2.2.1 (fun _ _ => .failure errQuota) 0 3 _ "foo" errQuota
      rfl (by decide) (by decide)

/-- **C5 counterexample.**  `{status: 429, message: "quota not found"}` is
rate-limit-class, yet at attempt 0 on model `foo` the code takes the
model-unavailable branch (the message contains `not found`, tested first):
the model is substituted twice and the error rethrown — no wait of 3000 ms
ever happens and the same model is never retried. -/
theorem c5_counterexample :
    isQuotaErr errQuotaNotFound = true ∧
    generateContentStreamWithRetry (fun _ _ => .failure errQuotaNotFound) "foo" =
      ⟨.error errQuotaNotFound,
        [.notice (fallbackNotice "foo"), .notice (fallbackNotice "gemini-2.5-flash")], 2⟩ := by
  exact ⟨by decide, rfl⟩

/-! ## SSE reader lemmas and claim C8 -/

theorem glueHead_cons (pre h : List Char) (t : List (List Char)) :
    glueHead pre (h :: t) = (pre ++ h) :: t := rfl

theorem glueHead_ne_nil (pre : List Char) (l : List (List Char)) :
    glueHead pre l ≠ [] := by
  cases l <;> simp [glueHead]

theorem glueHead_nil_left {l : List (List Char)} (h : l ≠ []) :
    glueHead [] l = l := by
  cases l with
  | nil => exact absurd rfl h
  | cons x xs => simp [glueHead]

theorem lastFrag_cons {x : List Char} {l : List (List Char)} (h : l ≠ []) :
    lastFrag (x :: l) = lastFrag l := by
  cases l with
  | nil => exact absurd rfl h
  | cons y ys => rfl

theorem lastFrag_cons2 (x y : List Char) (t : List (List Char)) :
    lastFrag (x :: y :: t) = lastFrag (y :: t) := rfl

theorem dropLast_cons_ne_nil {α : Type} {x : α} {l : List α} (h : l ≠ []) :
    (x :: l).dropLast = x :: l.dropLast := by
  cases l with
  | nil => exact absurd rfl h
  | cons y ys => rfl

theorem splitNlList_nl (cs : List Char) :
    splitNlList ('\n' :: cs) = [] :: splitNlList cs := by
  simp [splitNlList]

theorem splitNlList_other {c : Char} (h : c ≠ '\n') (cs : List Char) :
    splitNlList (c :: cs) = glueHead [c] (splitNlList cs) := by
  simp [splitNlList, h]

theorem splitNlList_ne_nil : ∀ l : List Char, splitNlList l ≠ [] := by
  intro l
  cases l with
  | nil => simp [splitNlList]
  | cons c cs =>
    by_cases h : c = '\n'
    · subst h; rw [splitNlList_nl]; simp
    · rw [splitNlList_other h]; exact glueHead_ne_nil _ _

theorem splitNlList_append : ∀ a b : List Char,
    splitNlList (a ++ b) =
      (splitNlList a).dropLast ++
        glueHead (lastFrag (splitNlList a)) (splitNlList b) := by
  intro a
  induction a with
  | nil =>
    intro b
    show splitNlList b = (splitNlList []).dropLast ++
      glueHead (lastFrag (splitNlList [])) (splitNlList b)
    show splitNlList b = [] ++ glueHead [] (splitNlList b)
    rw [glueHead_nil_left (splitNlList_ne_nil b), List.nil_append]
  | cons c cs ih =>
    intro b
    by_cases hc : c = '\n'
    · subst hc
      rw [List.cons_append, splitNlList_nl, splitNlList_nl, ih b,
        dropLast_cons_ne_nil (splitNlList_ne_nil cs),
        lastFrag_cons (splitNlList_ne_nil cs), List.cons_append]
    · rw [List.cons_append, splitNlList_other hc, splitNlList_other hc, ih b]
      cases h : splitNlList cs with
      | nil => exact absurd h (splitNlList_ne_nil cs)
      | cons x xs =>
        cases xs with
        | nil =>
          cases hb : splitNlList b with
          | nil => exact absurd hb (splitNlList_ne_nil b)
          | cons y ys => rfl
        | cons x2 xs2 => rfl

theorem splitNlList_no_newline : ∀ l : List Char, '\n' ∉ l → splitNlList l = [l] := by
  intro l
  induction l with
  | nil => intro _; rfl
  | cons c cs ih =>
    intro h
    have hc : c ≠ '\n' := fun hc => h (hc ▸ List.mem_cons_self c cs)
    have hcs : '\n' ∉ cs := fun hm => h (List.mem_cons_of_mem c hm)
    rw [splitNlList_other hc, ih hcs]
    rfl

theorem splitNlList_last_no_newline : ∀ l : List Char,
    '\n' ∉ lastFrag (splitNlList l) := by
  intro l
  induction l with
  | nil => simp [splitNlList, lastFrag]
  | cons c cs ih =>
    by_cases hc : c = '\n'
    · subst hc
      rw [splitNlList_nl, lastFrag_cons (splitNlList_ne_nil cs)]
      exact ih
    · rw [splitNlList_other hc]
      cases h : splitNlList cs with
      | nil => exact absurd h (splitNlList_ne_nil cs)
      | cons x xs =>
        rw [h] at ih
        cases xs with
        | nil =>
          show '\n' ∉ lastFrag [[c] ++ x]
          show '\n' ∉ [c] ++ x
          intro hm
          rcases List.mem_append.mp hm with h1 | h1
          · exact hc (List.mem_singleton.mp h1).symm
          · exact ih h1
        | cons x2 xs2 =>
          show '\n' ∉ lastFrag (([c] ++ x) :: x2 :: xs2)
          rw [lastFrag_cons2]
          rw [lastFrag_cons2] at ih
          exact ih

theorem processLines_append (parse : String → Option (Option String)) :
    ∀ l1 l2 : List String,
      processLines parse (l1 ++ l2) =
        if (processLines parse l1).2 then processLines parse l1
        else ((processLines parse l1).1 ++ (processLines parse l2).1,
          (processLines parse l2).2) := by
  intro l1
  induction l1 with
  | nil => intro l2; simp [processLines]
  | cons x xs ih =>
    intro l2
    cases h : processLine parse x with
    | stop => simp [processLines, h]
    | emit c =>
      simp only [List.cons_append, processLines, h, List.append_eq]
      rw [ih l2]
      by_cases hs : (processLines parse xs).2 <;> simp [hs]
    | skip =>
      simp only [List.cons_append, processLines, h, List.append_eq]
      exact ih l2

theorem sseRunL_nil_eq (parse : String → Option (Option String)) (buf : List Char) :
    sseRunL parse [] buf = [] := rfl

theorem sseRunL_cons_eq (parse : String → Option (Option String)) (c : List Char)
    (rest : List (List Char)) (buf : List Char) :
    sseRunL parse (c :: rest) buf =
      if (processLines parse ((splitNlList (buf ++ c)).dropLast.map String.mk)).2 then
        (processLines parse ((splitNlList (buf ++ c)).dropLast.map String.mk)).1
      else
        (processLines parse ((splitNlList (buf ++ c)).dropLast.map String.mk)).1 ++
          sseRunL parse rest (lastFrag (splitNlList (buf ++ c))) := rfl

/-- The buffer-carry property: feeding the byte stream in any chunking
produces the same emitted contents as feeding it as one chunk — the
incomplete trailing fragment of each read is carried into the next. -/
theorem sseRunL_carry (parse : String → Option (Option String)) :
    ∀ (rest : List (List Char)) (c buf : List Char),
      sseRunL parse (c :: rest) buf = sseRunL parse [(c :: rest).flatten] buf := by
  intro rest
  induction rest with
  | nil =>
    intro c buf
    have h : (c :: ([] : List (List Char))).flatten = c := by simp
    rw [h]
  | cons r rs ih =>
    intro c buf
    have hflat : (c :: r :: rs).flatten = c ++ (r :: rs).flatten := rfl
    have hsplit : splitNlList (buf ++ (c ++ (r :: rs).flatten)) =
        (splitNlList (buf ++ c)).dropLast ++
          glueHead (lastFrag (splitNlList (buf ++ c)))
            (splitNlList ((r :: rs).flatten)) := by
      rw [← List.append_assoc]
      exact splitNlList_append (buf ++ c) ((r :: rs).flatten)
    have hpre : splitNlList
        (lastFrag (splitNlList (buf ++ c)) ++ (r :: rs).flatten) =
        glueHead (lastFrag (splitNlList (buf ++ c)))
          (splitNlList ((r :: rs).flatten)) := by
      rw [splitNlList_append,
        splitNlList_no_newline _ (splitNlList_last_no_newline (buf ++ c))]
      rfl
    conv_rhs =>
      rw [hflat, sseRunL_cons_eq, sseRunL_nil_eq, List.append_nil, hsplit,
        List.dropLast_append_of_ne_nil _ (glueHead_ne_nil _ _),
        List.map_append, processLines_append]
    conv_lhs =>
      rw [sseRunL_cons_eq, ih r (lastFrag (splitNlList (buf ++ c))),
        sseRunL_cons_eq, sseRunL_nil_eq, List.append_nil, hpre]
    rcases hPR : processLines parse ((splitNlList (buf ++ c)).dropLast.map String.mk)
      with ⟨p1, p2⟩
    rcases hQ : processLines parse
        ((glueHead (lastFrag (splitNlList (buf ++ c)))
          (splitNlList ((r :: rs).flatten))).dropLast.map String.mk) with ⟨q1, q2⟩
    cases p2 <;> cases q2 <;> simp

/-- **C8.**  `generateOpenRouterStream`:
(a) a non-2xx response fails immediately with an error carrying the status
and the response body;
(b) the decoded byte stream is split on newlines with the incomplete
trailing fragment carried into the next read — any chunking of the same
bytes emits the same contents;
(c) a complete line whose trimmed form is `data: [DONE]` terminates the
stream: later lines are never processed;
(d) a `data: `-prefixed line whose JSON parses to a first-choice delta
content `c ≠ ""` emits exactly `c` to the chunk sink;
(e) a `data: `-prefixed line whose JSON is malformed is skipped without
failing the stream. -/
theorem c8_openrouter_sse :
    (∀ (parse : String → Option (Option String)) (resp : OrResponse),
      resp.ok = false →
      generateOpenRouterStream parse resp =
        .error { message := "OpenRouter Error " ++ toString resp.status ++ ": " ++ resp.body }) ∧
    (∀ (parse : String → Option (Option String)) (rest : List (List Char)) (c buf : List Char),
      sseRunL parse (c :: rest) buf = sseRunL parse [(c :: rest).flatten] buf) ∧
    (∀ (parse : String → Option (Option String)) (pre post : List String) (l : String),
      processLine parse l = .stop →
      processLines parse (pre ++ l :: post) = processLines parse (pre ++ [l])) ∧
    (∀ (parse : String → Option (Option String)) (l : String) (ls : List String) (c : String),
      startsWithStr (jsTrim l) "data: " = true → (jsTrim l).drop 6 ≠ "[DONE]" →
      parse ((jsTrim l).drop 6) = some (some c) → c ≠ "" →
      processLines parse (l :: ls) =
        (c :: (processLines parse ls).1, (processLines parse ls).2)) ∧
    (∀ (parse : String → Option (Option String)) (l : String) (ls : List String),
      startsWithStr (jsTrim l) "data: " = true → (jsTrim l).drop 6 ≠ "[DONE]" →
      parse ((jsTrim l).drop 6) = none →
      processLines parse (l :: ls) = processLines parse ls) := by
  refine ⟨?_, sseRunL_carry, ?_, ?_, ?_⟩
  · intro parse resp h
    simp [generateOpenRouterStream, h]
  · intro parse pre post l hstop
    rw [processLines_append, processLines_append]
    have h1 : processLines parse (l :: post) = ([], true) := by
      simp [processLines, hstop]
    have h2 : processLines parse [l] = ([], true) := by
      simp [processLines, hstop]
    rw [h1, h2]
  · intro parse l ls c h1 h2 h3 h4
    have hline : processLine parse l = .emit c := by
      simp [processLine, h1, h2, h3, h4]
    simp [processLines, hline]
  · intro parse l ls h1 hdone h2
    have hline : processLine parse l = .skip := by
      simp [processLine, h1, hdone, h2]
    simp [processLines, hline]

/-- Witness for C8: a 500 response fails with status and body; a well-formed
`data: ` line emits its delta content. -/
theorem c8_openrouter_sse_witness :
    generateOpenRouterStream (fun _ => none)
      { ok := false, status := 500, body := "boom", chunks := [] } =
      .error { message := "OpenRouter Error 500: boom" } ∧
    processLines (fun s => if s = "x" then some (some "X") else none)
      ["data: x"] = (["X"], false) := by
  constructor
  · exact c8_openrouter_sse.1 (fun _ => none)
      { ok := false, status := 500, body := "boom", chunks := [] } rfl
  · exact c8_openrouter_sse.2.2.2.1
      (fun s => if s = "x" then some (some "X") else none) "data: x" [] "X"
      (by decide) (by decide) (by decide) (by decide)

/-! ## Loop lemmas and claims C1, C6 -/

theorem loopAux_iters_le (env : AgentEnv) (native mss : Bool) (o : String) :
    ∀ (fuel : Nat) (st : LoopState),
      (loopAux env native mss o fuel st).iters ≤ st.iters + fuel := by
  intro fuel
  induction fuel with
  | zero => intro st; simp [loopAux]
  | succ f ih =>
    intro st
    simp only [loopAux]
    split
    · simp
    · split
      · simp
      · split
        · simp
        · refine le_trans (ih _) ?_
          simp only []
          omega
        · split
          · refine le_trans (ih _) ?_
            simp only []
            omega
          · simp

theorem finishRun_iters (env : AgentEnv) (r : LoopRes) :
    (finishRun env r).iters = r.iters := by
  unfold finishRun
  cases r.out with
  | ret text meta => rfl
  | thr e finalT =>
    by_cases h : e.name = "AbortError" <;> simp [h]

/-- **C1.**  The generation loop of `runAutonomousAgent` executes at most
`MAX_LOOPS = 6` iterations for every environment, model, prompt and initial
action; and the call always settles: the run is a total function of its
environment, so — assuming every awaited network call eventually settles, as
the environment encodes — an outcome always exists (a resolved result from
the main body, whose `catch` converts every loop failure, or the one
instant-mode rejection). -/
theorem c1_loop_bound :
    (∀ (env : AgentEnv) (model prompt : String) (a : RouterAction),
      (runAgentMain env model prompt a).iters ≤ 6) ∧
    (∀ (env : AgentEnv) (instant : Except JsError String) (input : AgentInput)
        (a : RouterAction),
      ∃ r, runAutonomousAgent env instant input a = r) := by
  constructor
  · intro env model prompt a
    unfold runAgentMain
    rw [finishRun_iters]
    have h := loopAux_iters_le env (isGoogleModel model) (modelSupportsSearch model)
      prompt 6 (initialState env model prompt a)
    simpa [initialState] using h
  · intro env instant input a
    exact ⟨runAutonomousAgent env instant input a, rfl⟩

/-- **C6.**  The fixed-priority tag routing applied to the iteration's
accumulated segment after the batch-search check:
(1) a `DEEP` tag with non-empty content switches to `DEEP_SEARCH` with its
inner text, regardless of later tags;
(2) else a single `SEARCH` tag, when no batch has ever run
(`fallbackSearchContext` empty), switches to `SEARCH` with its inner text;
(3-6) else the first present among `IMAGE`, `PROJECT`,
`CANVAS_TRIGGER`/`CANVAS`, `STUDY` — in that order — switches the action and
sets the next prompt to its inner text;
(7) the segment `<IMAGE>a red fox</IMAGE>` yields action `IMAGE` with next
prompt `a red fox`;
(8) with no matching tag the routing terminates the loop;
(9) a `.go` routing makes the loop continue into the next iteration with the
switched action and prompt;
(10) a `.done` routing ends the iteration returning the accumulated final
text (the raw-search-context fallback not firing whenever the final text is
not whitespace-only or no batch ever ran). -/
theorem c6_tag_routing :
    (∀ (gen fb d : String), extractTag "<DEEP>" "</DEEP>" gen = some d → d ≠ "" →
      routeAfterBatch gen fb = .go .DEEP_SEARCH d) ∧
    (∀ (gen q : String), truthy (extractTag "<DEEP>" "</DEEP>" gen) = false →
      matchAllSearch gen = [q] → routeAfterBatch gen "" = .go .SEARCH q) ∧
    (∀ (gen fb i : String), truthy (extractTag "<DEEP>" "</DEEP>" gen) = false →
      ¬((matchAllSearch gen).length = 1 ∧ fb = "") →
      extractTag "<IMAGE>" "</IMAGE>" gen = some i → i ≠ "" →
      routeAfterBatch gen fb = .go .IMAGE i) ∧
    (∀ (gen fb p : String), truthy (extractTag "<DEEP>" "</DEEP>" gen) = false →
      ¬((matchAllSearch gen).length = 1 ∧ fb = "") →
      truthy (extractTag "<IMAGE>" "</IMAGE>" gen) = false →
      extractTag "<PROJECT>" "</PROJECT>" gen = some p → p ≠ "" →
      routeAfterBatch gen fb = .go .PROJECT p) ∧
    (∀ (gen fb cv : String), truthy (extractTag "<DEEP>" "</DEEP>" gen) = false →
      ¬((matchAllSearch gen).length = 1 ∧ fb = "") →
      truthy (extractTag "<IMAGE>" "</IMAGE>" gen) = false →
      truthy (extractTag "<PROJECT>" "</PROJECT>" gen) = false →
      orElseOpt (extractTag "<CANVAS_TRIGGER>" "</CANVAS_TRIGGER>" gen)
        (orElseOpt (extractTag "<CANVAS_TRIGGER>" "</CANVASTRIGGER>" gen)
          (extractTag "<CANVAS>" "</CANVAS>" gen)) = some cv → cv ≠ "" →
      routeAfterBatch gen fb = .go .CANVAS cv) ∧
    (∀ (gen fb s : String), truthy (extractTag "<DEEP>" "</DEEP>" gen) = false →
      ¬((matchAllSearch gen).length = 1 ∧ fb = "") →
      truthy (extractTag "<IMAGE>" "</IMAGE>" gen) = false →
      truthy (extractTag "<PROJECT>" "</PROJECT>" gen) = false →
      truthy (orElseOpt (extractTag "<CANVAS_TRIGGER>" "</CANVAS_TRIGGER>" gen)
        (orElseOpt (extractTag "<CANVAS_TRIGGER>" "</CANVASTRIGGER>" gen)
          (extractTag "<CANVAS>" "</CANVAS>" gen))) = false →
      extractTag "<STUDY>" "</STUDY>" gen = some s → s ≠ "" →
      routeAfterBatch gen fb = .go .STUDY s) ∧
    (routeAfterBatch "<IMAGE>a red fox</IMAGE>" "" = .go .IMAGE "a red fox") ∧
    (∀ (gen fb : String), truthy (extractTag "<DEEP>" "</DEEP>" gen) = false →
      ¬((matchAllSearch gen).length = 1 ∧ fb = "") →
      truthy (extractTag "<IMAGE>" "</IMAGE>" gen) = false →
      truthy (extractTag "<PROJECT>" "</PROJECT>" gen) = false →
      truthy (orElseOpt (extractTag "<CANVAS_TRIGGER>" "</CANVAS_TRIGGER>" gen)
        (orElseOpt (extractTag "<CANVAS_TRIGGER>" "</CANVASTRIGGER>" gen)
          (extractTag "<CANVAS>" "</CANVAS>" gen))) = false →
      truthy (extractTag "<STUDY>" "</STUDY>" gen) = false →
      routeAfterBatch gen fb = .done) ∧
    (∀ (env : AgentEnv) (native mss : Bool) (o : String) (fuel : Nat)
        (st : LoopState) (c : ConsumeRes) (a : RouterAction) (p : String),
      abortedAt env.abortAt st.t = false → iterConsume env native st = c →
      c.err = none → runBatch o mss c.gen (env.query st.iters) = .notRun →
      routeAfterBatch c.gen st.fallbackCtx = .go a p →
      loopAux env native mss o (fuel + 1) st =
        loopAux env native mss o fuel
          { action := a, prompt := p, final := c.final, meta := c.meta,
            fallbackCtx := st.fallbackCtx, t := c.t, snap := c.snap,
            iters := st.iters + 1 }) ∧
    (∀ (env : AgentEnv) (native mss : Bool) (o : String) (fuel : Nat)
        (st : LoopState) (c : ConsumeRes),
      abortedAt env.abortAt st.t = false → iterConsume env native st = c →
      c.err = none → runBatch o mss c.gen (env.query st.iters) = .notRun →
      routeAfterBatch c.gen st.fallbackCtx = .done →
      (st.fallbackCtx = "" ∨ jsTrim c.final ≠ "") →
      loopAux env native mss o (fuel + 1) st =
        ⟨.ret c.final c.meta, c.t, c.snap, st.iters + 1⟩) := by
  refine ⟨?_, ?_, ?_, ?_, ?_, ?_, by decide, ?_, ?_, ?_⟩
  · intro gen fb d hd hne
    simp [routeAfterBatch, hd, truthy, hne]
  · intro gen q hd hms
    simp [routeAfterBatch, hd, hms]
  · intro gen fb i hd hg hi hne
    simp only [routeAfterBatch, hd, hi]
    simp [truthy, hne]
    exact fun hlen hfb => hg ⟨hlen, hfb⟩
  · intro gen fb p hd hg hi hp hne
    simp only [routeAfterBatch, hd, hi, hp]
    simp [truthy, hne]
    exact fun hlen hfb => hg ⟨hlen, hfb⟩
  · intro gen fb cv hd hg hi hp hcv hne
    simp only [routeAfterBatch, hd, hi, hp, hcv]
    simp [truthy, hne]
    exact fun hlen hfb => hg ⟨hlen, hfb⟩
  · intro gen fb s hd hg hi hp hcv hs hne
    simp only [routeAfterBatch, hd, hi, hp, hcv, hs]
    simp [truthy, hne]
    exact fun hlen hfb => hg ⟨hlen, hfb⟩
  · intro gen fb hd hg hi hp hcv hs
    simp [routeAfterBatch, hd, hi, hp, hcv, hs]
    exact fun hlen hfb => hg ⟨hlen, hfb⟩
  · intro env native mss o fuel st c a p hab hc herr hbatch hroute
    subst hc
    simp [loopAux, hab, herr, hbatch, hroute]
  · intro env native mss o fuel st c hab hc herr hbatch hroute hguard
    subst hc
    simp [loopAux, hab, herr, hbatch, hroute]
    intro h1 h2
    rcases hguard with h | h
    · exact absurd h h2
    · exact absurd h1 h

/-- Witness for C6: a `DEEP` tag wins over a later `IMAGE` tag even when a
batch ran earlier, and a tag-free segment routes to termination. -/
theorem c6_tag_routing_witness :
    routeAfterBatch "<DEEP>x</DEEP><IMAGE>a</IMAGE>" "ctx" = .go .DEEP_SEARCH "x" ∧
    routeAfterBatch "plain text" "" = .done := by
  constructor
  · exact c6_tag_routing.1 "<DEEP>x</DEEP><IMAGE>a</IMAGE>" "ctx" "x"
      (by decide) (by decide)
  · exact c6_tag_routing.2.2.2.2.2.2.2.1 "plain text" ""
      (by decide) (by decide) (by decide) (by decide) (by decide) (by decide)

/-! ## Search pipeline claims C7, C10 -/

/-- A query whose fetch timed out: one snippet-only search result, no
fetched content anywhere. -/
def snippetOnlyQuery : QueryEnv :=
  { failed := false, results := [⟨"t", "u", some "s", none⟩],
    jina := fun _ => "", timedOut := true }

/-- Jina oracle for the witness below: 60 characters for `long`, 3 for the
rest. -/
def jinaW : String → String :=
  fun u => if u = "long" then String.mk (List.replicate 60 'a') else "abc"

/-- Shared helper: membership in the non-timeout fetch result. -/
theorem fetchContents_no_timeout_mem (jina : String → String) (results : List Page)
    (limit : Nat) (p : Page)
    (hp : p ∈ fetchContentsForResults jina false results limit) :
    ∃ r ∈ results.take limit,
      p = { r with content := some ((jina r.url).take 15000) } ∧
      (jina r.url).take 15000 ≠ "" ∧
      (jsTrim ((jina r.url).take 15000)).length > 50 := by
  unfold fetchContentsForResults at hp
  simp only [Bool.false_eq_true, if_false] at hp
  rcases List.mem_filter.mp hp with ⟨hmem, hpred⟩
  rcases List.mem_map.mp hmem with ⟨r, hr, hre⟩
  subst hre
  refine ⟨r, hr, rfl, ?_⟩
  simpa using hpred

/-- **C10.**  `fetchContentsForResults`:
(a) when the aggregate fetch loses the race against the fixed 8000 ms
timeout, the first `limit` input results are returned entirely unchanged —
snippet-only, no `content` field added, and the >50-character filter not
applied — so a per-query `pagesOf` under timeout is just `results.take 20`,
and the loop's validity test (`pages.length > 0`) can hold with no fetched
content anywhere (concrete sub-claim below);
(b) a page surviving the non-timeout path is an input of the first `limit`
enriched with its Jina content truncated to 15000 characters, non-empty and
longer than 50 characters after trimming — pages failing that are dropped;
(c) the aggregated-context renderer prints a missing content field as the
string `undefined`. -/
theorem c10_fetch_timeout_degradation :
    (∀ (jina : String → String) (timedOut : Bool) (results : List Page) (limit : Nat),
      timedOut = true →
      fetchContentsForResults jina timedOut results limit = results.take limit) ∧
    (∀ (qe : QueryEnv), qe.failed = false → qe.timedOut = true →
      pagesOf qe = qe.results.take 20) ∧
    (pagesOf snippetOnlyQuery = [⟨"t", "u", some "s", none⟩] ∧
      (pagesOf snippetOnlyQuery).length > 0) ∧
    (∀ (jina : String → String) (results : List Page) (limit : Nat) (p : Page),
      p ∈ fetchContentsForResults jina false results limit →
      ∃ r ∈ results.take limit,
        p = { r with content := some ((jina r.url).take 15000) } ∧
        (jina r.url).take 15000 ≠ "" ∧
        (jsTrim ((jina r.url).take 15000)).length > 50) ∧
    (∀ (i : Nat) (p : Page), p.content = none →
      pageLine i p =
        "[" ++ toString (i + 1) ++ "] " ++ p.title ++ " (" ++ p.url ++ "):\n" ++
          "undefined") := by
  refine ⟨?_, ?_, ⟨by decide, by decide⟩, ?_, ?_⟩
  · intro jina timedOut results limit h
    subst h
    rfl
  · intro qe h1 h2
    unfold pagesOf fetchContentsForResults
    rw [h1, h2]
    simp
  · exact fetchContents_no_timeout_mem
  · intro i p h
    unfold pageLine
    rw [h]
    rfl

/-- Witness for C10: a non-timeout fetch drops a 3-character page and keeps
a 60-character page truncated content intact. -/
theorem c10_fetch_timeout_degradation_witness :
    fetchContentsForResults jinaW
      true [⟨"t1", "long", none, none⟩, ⟨"t2", "short", none, none⟩] 20 =
      [⟨"t1", "long", none, none⟩, ⟨"t2", "short", none, none⟩] ∧
    ∀ p ∈ fetchContentsForResults jinaW
      false [⟨"t1", "long", none, none⟩, ⟨"t2", "short", none, none⟩] 20,
      ∃ r ∈ ([⟨"t1", "long", none, none⟩, ⟨"t2", "short", none, none⟩] : List Page).take 20,
        p = { r with content := some ((jinaW r.url).take 15000) } := by
  constructor
  · exact c10_fetch_timeout_degradation.1 _ true _ 20 rfl
  · intro p hp
    obtain ⟨r, hr, he, -⟩ := c10_fetch_timeout_degradation.2.2.2.1 _ _ 20 p hp
    exact ⟨r, hr, he⟩

/-- **C7** (amended).  The batch search over extracted queries:
(a) a failed query yields the empty page list, leaving its siblings intact;
(b) a query counts as valid exactly when its (possibly timeout-degraded)
fetch returned at least one page — on the non-timeout path every returned
page carries non-trivial (>50 characters trimmed) fetched content, so there
validity coincides with the claim, but timeout-degraded snippet-only pages
count too (see the counterexample);
(c) if no query is valid the batch takes no action and routing falls
through;
(d) on success every citation added comes from a page of a valid query, and
the synthesis prompt is built from the queries and the aggregated context of
exactly the valid queries' pages. -/
theorem c7_batch_partial_failure :
    (∀ qe : QueryEnv, qe.failed = true → pagesOf qe = []) ∧
    (∀ (qe : QueryEnv), qe.failed = false → qe.timedOut = false →
      ∀ p ∈ pagesOf qe, ∃ c, p.content = some c ∧
        c ≠ "" ∧ (jsTrim c).length > 50) ∧
    (∀ (o : String) (mss : Bool) (gen : String) (qe : String → QueryEnv),
      batchQueries gen ≠ [] →
      (∀ q ∈ batchQueries gen, pagesOf (qe q) = []) →
      runBatch o mss gen qe = .notRun) ∧
    (∀ (o : String) (mss : Bool) (gen : String) (qe : String → QueryEnv)
        (meta : List Citation) (ctx synth : String),
      runBatch o mss gen qe = .ran meta ctx synth →
      (∀ c ∈ meta, ∃ q ∈ batchQueries gen, (pagesOf (qe q)).length > 0 ∧
        ∃ pg ∈ pagesOf (qe q), c = ⟨pg.url, pg.title⟩) ∧
      synth = synthesisPrompt o (batchQueries gen) ctx ∧
      ctx = batchCtx gen qe) := by
  refine ⟨?_, ?_, ?_, ?_⟩
  · intro qe h
    unfold pagesOf
    rw [h]
    rfl
  · intro qe h1 h2 p hp
    unfold pagesOf at hp
    rw [h1] at hp
    simp only [Bool.false_eq_true, if_false] at hp
    obtain ⟨r, hmem, he, hA, hB⟩ := fetchContents_no_timeout_mem _ _ _ p
      (by rw [h2] at hp; exact hp)
    exact ⟨(qe.jina r.url).take 15000, by rw [he], hA, hB⟩
  · intro o mss gen qe hne hall
    have hvalid : validResults gen qe = [] := by
      unfold validResults
      rw [List.filter_eq_nil_iff]
      intro a ha
      rcases List.mem_map.mp ha with ⟨q, hq, rfl⟩
      simp [hall q hq]
    unfold runBatch
    by_cases hms : (matchAllSearch gen).length > 0
    · rw [if_pos hms]
      rcases hl : (batchQueries gen).head? with _ | q
      · exact absurd (List.head?_eq_none_iff.mp hl) hne
      · cases hmss : mss
        · cases hb : shouldUseExternalSearch q false true <;>
            simp [shouldUseExternalSearchU, hb, hvalid]
        · simp [shouldUseExternalSearchU]
    · rw [if_neg hms]
  · intro o mss gen qe meta ctx synth hrun
    unfold runBatch at hrun
    by_cases hms : (matchAllSearch gen).length > 0
    · rw [if_pos hms] at hrun
      rcases hsu : shouldUseExternalSearchU (batchQueries gen).head? mss true with e | b
      · rw [hsu] at hrun
        exact absurd hrun (by simp)
      · rw [hsu] at hrun
        cases b
        · exact absurd hrun (by simp)
        · by_cases hv : (validResults gen qe).length > 0
          · rw [if_pos hv] at hrun
            injection hrun with h1 h2 h3
            subst h1
            subst h2
            subst h3
            refine ⟨?_, rfl, rfl⟩
            intro c hc
            rcases List.mem_flatMap.mp hc with ⟨r, hr, hcr⟩
            rcases List.mem_filter.mp hr with ⟨hrmem, hrlen⟩
            rcases List.mem_map.mp hrmem with ⟨q, hq, rfl⟩
            rcases List.mem_map.mp hcr with ⟨pg, hpg, rfl⟩
            exact ⟨q, hq, by simpa using hrlen, pg, hpg, rfl⟩
          · rw [if_neg hv] at hrun
            exact absurd hrun (by simp)
    · rw [if_neg hms] at hrun
      exact absurd hrun (by simp)

/-- Witness for C7: a two-query batch in which every query fails takes no
action; a failed query's page list is empty. -/
theorem c7_batch_partial_failure_witness :
    pagesOf { failed := true, results := [], jina := fun _ => "", timedOut := false } = [] ∧
    runBatch "o" false "<SEARCH>a</SEARCH><SEARCH>b</SEARCH>"
      (fun _ => { failed := true, results := [], jina := fun _ => "", timedOut := false }) =
      .notRun := by
  constructor
  · exact c7_batch_partial_failure.1 _ rfl
  · exact c7_batch_partial_failure.2.2.1 "o" false _ _ (by decide)
      (fun q _ => c7_batch_partial_failure.1 _ rfl)

/-- **C7 counterexample.**  The claim says a query counts as valid only if
it returned at least one page with non-trivial fetched content.  With the
8000 ms fetch timeout firing, a query whose only page is snippet-only (no
`content` at all) still has `pages.length > 0`, counts as valid, and the
batch runs on it — the aggregated context even renders the missing content
as `undefined`. -/
theorem c7_counterexample :
    (pagesOf snippetOnlyQuery).length > 0 ∧
    (∀ p ∈ pagesOf snippetOnlyQuery, p.content = none) ∧
    runBatch "orig" false "<SEARCH>q</SEARCH>" (fun _ => snippetOnlyQuery) =
      .ran [⟨"u", "t"⟩]
        "\n\n=== WEB RESULTS FOR QUERY: \"q\" ===\n[1] t (u):\nundefined"
        ("USER ORIGINALLY ASKED: orig\n\nI have performed the following searches based on my previous thought process:\n- q\n\nSEARCH CONTEXT:\n\n\n=== WEB RESULTS FOR QUERY: \"q\" ===\n[1] t (u):\nundefined\n\nINSTRUCTIONS: Synthesize a comprehensive answer to the user's original query using this search data. Cite sources using [1], [2] format. Do NOT repeat the <SEARCH> tags.") := by
  refine ⟨by decide, by decide, by rfl⟩

/-! ## Claim C2: early stop on closing tags -/

/-- **C2** (amended).  Early stopping is a native-backend behavior only:
(a) on the native (Gemini) backend, as soon as the iteration buffer contains
a closing control tag no further deltas are consumed — processing
`ds ++ es` is identical to processing `ds` whenever `ds` already drives the
buffer into a tag-containing state, whatever `es` holds;
(b) the OpenRouter chunk sink has no tag check: absent cancellation it
appends every delivered delta to the buffer and the final text, tags or
not. -/
theorem c2_native_early_stop :
    (∀ (a : Option Nat) (e : Option JsError) (ds es : List NativeChunk)
        (gen final : String) (meta : List Citation) (t : Nat) (snap : Option String),
      containsClosingTag gen = false →
      containsClosingTag (consumeNative a ds e gen final meta t snap).gen = true →
      consumeNative a (ds ++ es) e gen final meta t snap =
        consumeNative a ds e gen final meta t snap) ∧
    (∀ (ds : List String) (e : Option JsError) (gen final : String)
        (meta : List Citation) (t : Nat) (snap : Option String),
      (consumeOR none ds e gen final meta t snap).gen =
        ds.foldl (fun acc d => acc ++ d) gen ∧
      (consumeOR none ds e gen final meta t snap).final =
        ds.foldl (fun acc d => acc ++ d) final) := by
  constructor
  · intro a e ds
    induction ds with
    | nil =>
      intro es gen final meta t snap hfalse htrue
      rw [consumeNative] at htrue
      exact absurd htrue (by simp [hfalse])
    | cons d ds ih =>
      intro es gen final meta t snap hfalse htrue
      rw [List.cons_append]
      by_cases hab : abortedAt a t = true
      · rw [consumeNative] at htrue ⊢
        rw [consumeNative]
        simp only [hab, if_true] at htrue ⊢
      · simp only [Bool.not_eq_true] at hab
        by_cases hd : d.text = ""
        · rw [consumeNative] at htrue ⊢
          rw [consumeNative]
          simp only [hab, Bool.false_eq_true, if_false, hd, if_true] at htrue ⊢
          exact ih es gen final meta (t + 1) snap hfalse htrue
        · by_cases htag : containsClosingTag (gen ++ d.text) = true
          · rw [consumeNative, consumeNative]
            simp only [hab, Bool.false_eq_true, if_false, hd, htag, if_true]
          · simp only [Bool.not_eq_true] at htag
            rw [consumeNative] at htrue ⊢
            rw [consumeNative]
            simp only [hab, Bool.false_eq_true, if_false, hd, htag, if_true] at htrue ⊢
            exact ih es (gen ++ d.text) (final ++ d.text) (meta ++ d.cites)
              (t + 1) snap htag htrue
  · intro ds
    induction ds with
    | nil => intro e gen final meta t snap; exact ⟨rfl, rfl⟩
    | cons d ds ih =>
      intro e gen final meta t snap
      rw [consumeOR]
      simp only [abortedAt, Bool.false_eq_true, if_false]
      exact ih e (gen ++ d) (final ++ d) meta (t + 1) snap

/-- Witness for C2 (amended): a native stream that has emitted `</IMAGE>`
consumes nothing further; the OpenRouter sink appends a delta arriving after
the closing tag. -/
theorem c2_native_early_stop_witness :
    consumeNative none [⟨"</IMAGE>", []⟩, ⟨"X", []⟩] none "" "" [] 0 none =
      consumeNative none [⟨"</IMAGE>", []⟩] none "" "" [] 0 none ∧
    (consumeOR none ["</IMAGE>", "X"] none "" "" [] 0 none).gen =
      (["</IMAGE>", "X"] : List String).foldl (fun acc d => acc ++ d) "" := by
  constructor
  · exact c2_native_early_stop.1 none none [⟨"</IMAGE>", []⟩] [⟨"X", []⟩]
      "" "" [] 0 none (by decide) (by decide)
  · exact (c2_native_early_stop.2 ["</IMAGE>", "X"] none "" "" [] 0 none).1

/-- **C2 counterexample.**  On the OpenRouter backend the claim fails: after
the buffer already equals `</IMAGE>` (a closing control tag), the next delta
`X` is still consumed — appended to the iteration buffer and the final
text. -/
theorem c2_counterexample :
    containsClosingTag "</IMAGE>" = true ∧
    (consumeOR none ["</IMAGE>", "X"] none "" "" [] 0 none).gen = "</IMAGE>X" ∧
    (consumeOR none ["</IMAGE>", "X"] none "" "" [] 0 none).final = "</IMAGE>X" := by
  refine ⟨by decide, by decide, by decide⟩

/-! ## Cancellation lemmas and claim C3 -/

theorem abortedAt_mono {a : Option Nat} {t : Nat} (h : abortedAt a t = true) :
    abortedAt a (t + 1) = true := by
  cases a with
  | none => simp [abortedAt] at h
  | some k =>
    simp only [abortedAt, decide_eq_true_eq] at h ⊢
    omega

theorem leadsWith_eq_append : ∀ (p l : List Char), leadsWith p l = true →
    l = p ++ l.drop p.length := by
  intro p
  induction p with
  | nil => intro l _; simp
  | cons c cs ih =>
    intro l h
    cases l with
    | nil => simp [leadsWith] at h
    | cons x xs =>
      simp only [leadsWith, Bool.and_eq_true, decide_eq_true_eq] at h
      rcases h with ⟨rfl, h2⟩
      simpa using ih xs h2

theorem splitFirstAux_eq_append :
    ∀ (pat s b c : List Char), splitFirstAux pat s = some (b, c) →
      s = b ++ pat ++ c := by
  intro pat s
  induction s generalizing pat with
  | nil =>
    intro b c h
    rw [splitFirstAux] at h
    by_cases hp : pat = ([] : List Char)
    · rw [if_pos hp] at h
      simp only [Option.some.injEq, Prod.mk.injEq] at h
      rw [← h.1, ← h.2, hp]
      rfl
    · rw [if_neg hp] at h
      exact absurd h (by simp)
  | cons x xs ih =>
    intro b c h
    rw [splitFirstAux] at h
    by_cases hl : leadsWith pat (x :: xs) = true
    · rw [if_pos hl] at h
      simp only [Option.some.injEq, Prod.mk.injEq] at h
      rw [← h.1, ← h.2, List.nil_append]
      exact leadsWith_eq_append pat (x :: xs) hl
    · rw [if_neg hl] at h
      cases hrec : splitFirstAux pat xs with
      | none => rw [hrec] at h; exact absurd h (by simp)
      | some pr =>
        rcases pr with ⟨b2, c2⟩
        rw [hrec] at h
        simp only [Option.some.injEq, Prod.mk.injEq] at h
        rw [← h.1, ← h.2]
        have := ih pat b2 c2 hrec
        simp [this]

theorem matchAll_ne_nil_lt_mem (gen : String) (h : matchAllSearch gen ≠ []) :
    '<' ∈ gen.data := by
  unfold matchAllSearch at h
  rw [matchAllAux] at h
  cases hsp : splitFirstAux "<SEARCH>".data gen.data with
  | none => rw [hsp] at h; simp at h
  | some pr =>
    rcases pr with ⟨b, rest⟩
    have := splitFirstAux_eq_append _ _ _ _ hsp
    rw [this]
    simp

theorem mem_dropWhile_not_ws : ∀ (l : List Char) (ch : Char),
    ch ∈ l → isWs ch = false → ch ∈ l.dropWhile isWs := by
  intro l
  induction l with
  | nil => intro ch h; simp at h
  | cons c cs ih =>
    intro ch h hws
    rcases List.mem_cons.mp h with rfl | hm
    · rw [List.dropWhile_cons, hws]
      simp
    · rw [List.dropWhile_cons]
      by_cases hc : isWs c = true
      · simp only [hc, if_true]
        exact ih ch hm hws
      · simp only [Bool.not_eq_true] at hc
        simp [hc]
        right
        exact hm

theorem jsTrim_ne_empty (s : String) (ch : Char) (hm : ch ∈ s.data)
    (hws : isWs ch = false) : jsTrim s ≠ "" := by
  intro he
  have hdata : jsTrimList s.data = [] := congrArg String.data he
  unfold jsTrimList at hdata
  rw [List.reverse_eq_nil_iff, List.dropWhile_eq_nil_iff] at hdata
  have h1 : ch ∈ s.data.dropWhile isWs := mem_dropWhile_not_ws s.data ch hm hws
  have h2 : ch ∈ (s.data.dropWhile isWs).reverse := List.mem_reverse.mpr h1
  have := hdata ch h2
  rw [hws] at this
  exact absurd this (by simp)

theorem consumeNative_extends (a : Option Nat) :
    ∀ (ds : List NativeChunk) (e : Option JsError) (g f : String)
      (m : List Citation) (t : Nat) (sn : Option String),
      ∃ add : List Char,
        (consumeNative a ds e g f m t sn).gen.data = g.data ++ add ∧
        (consumeNative a ds e g f m t sn).final.data = f.data ++ add := by
  intro ds
  induction ds with
  | nil =>
    intro e g f m t sn
    refine ⟨[], ?_, ?_⟩ <;> · rw [consumeNative]; simp
  | cons d ds ih =>
    intro e g f m t sn
    rw [consumeNative]
    by_cases hab : abortedAt a t = true
    · rw [if_pos hab]
      refine ⟨[], by simp, by simp⟩
    · rw [if_neg hab]
      by_cases hd : d.text = ""
      · rw [if_pos hd]
        exact ih e g f m (t + 1) sn
      · rw [if_neg hd]
        by_cases htag : containsClosingTag (g ++ d.text) = true
        · rw [if_pos htag]
          refine ⟨d.text.data, by simp, by simp⟩
        · rw [if_neg htag]
          rcases ih e (g ++ d.text) (f ++ d.text) (m ++ d.cites) (t + 1) sn with
            ⟨add, h1, h2⟩
          exact ⟨d.text.data ++ add, by simp [h1], by simp [h2]⟩

theorem consumeOR_extends (a : Option Nat) :
    ∀ (ds : List String) (e : Option JsError) (g f : String)
      (m : List Citation) (t : Nat) (sn : Option String),
      ∃ add : List Char,
        (consumeOR a ds e g f m t sn).gen.data = g.data ++ add ∧
        (consumeOR a ds e g f m t sn).final.data = f.data ++ add := by
  intro ds
  induction ds with
  | nil =>
    intro e g f m t sn
    refine ⟨[], ?_, ?_⟩ <;> · rw [consumeOR]; simp
  | cons d ds ih =>
    intro e g f m t sn
    rw [consumeOR]
    by_cases hab : abortedAt a t = true
    · rw [if_pos hab]
      refine ⟨[], by simp, by simp⟩
    · rw [if_neg hab]
      rcases ih e (g ++ d) (f ++ d) m (t + 1) sn with ⟨add, h1, h2⟩
      exact ⟨d.data ++ add, by simp [h1], by simp [h2]⟩

theorem consumeNative_snap_none (a : Option Nat) :
    ∀ (ds : List NativeChunk) (e : Option JsError) (g f : String)
      (m : List Citation) (t : Nat) (s : String),
      (consumeNative a ds e g f m t none).snap = some s →
      (consumeNative a ds e g f m t none).final = s ∧
      (consumeNative a ds e g f m t none).err = none ∧
      abortedAt a (consumeNative a ds e g f m t none).t = true := by
  intro ds
  induction ds with
  | nil =>
    intro e g f m t s h
    rw [consumeNative] at h
    exact absurd h (by simp)
  | cons d ds ih =>
    intro e g f m t s h
    rw [consumeNative] at h ⊢
    by_cases hab : abortedAt a t = true
    · rw [if_pos hab] at h ⊢
      have hs : f = s := by
        have h2 : orElseOpt (none : Option String) (some f) = some s := h
        simpa [orElseOpt] using h2
      exact ⟨hs, rfl, abortedAt_mono hab⟩
    · rw [if_neg hab] at h ⊢
      by_cases hd : d.text = ""
      · rw [if_pos hd] at h ⊢
        exact ih e g f m (t + 1) s h
      · rw [if_neg hd] at h ⊢
        by_cases htag : containsClosingTag (g ++ d.text) = true
        · rw [if_pos htag] at h
          exact absurd h (by simp)
        · rw [if_neg htag] at h ⊢
          exact ih e (g ++ d.text) (f ++ d.text) (m ++ d.cites) (t + 1) s h

theorem consumeOR_snap_none (a : Option Nat) :
    ∀ (ds : List String) (e : Option JsError) (g f : String)
      (m : List Citation) (t : Nat) (s : String),
      (consumeOR a ds e g f m t none).snap = some s →
      (consumeOR a ds e g f m t none).final = s ∧
      (consumeOR a ds e g f m t none).err = some abortError := by
  intro ds
  induction ds with
  | nil =>
    intro e g f m t s h
    rw [consumeOR] at h
    exact absurd h (by simp)
  | cons d ds ih =>
    intro e g f m t s h
    rw [consumeOR] at h ⊢
    by_cases hab : abortedAt a t = true
    · rw [if_pos hab] at h ⊢
      have hs : f = s := by
        have h2 : orElseOpt (none : Option String) (some f) = some s := h
        simpa [orElseOpt] using h2
      exact ⟨hs, rfl⟩
    · rw [if_neg hab] at h ⊢
      exact ih e (g ++ d) (f ++ d) m (t + 1) s h

/-- With `modelSupportsSearch` true (the native case, line 17 of the search
service) the batch eligibility test returns false before touching the
queries: the batch never runs. -/
theorem runBatch_mss_true (o gen : String) (qe : String → QueryEnv) :
    runBatch o true gen qe = .notRun := by
  unfold runBatch shouldUseExternalSearchU
  by_cases hms : (matchAllSearch gen).length > 0
  · simp [hms]
  · simp [hms]

/-- The loop-state invariant used for cancellation: whenever a batch has run
(`fallbackSearchContext` non-empty) the final text holds a non-whitespace
character, so the raw-context fallback at line 507 cannot fire. -/
def INVP (st : LoopState) : Prop :=
  st.fallbackCtx ≠ "" → ∃ ch ∈ st.final.data, isWs ch = false

/-- Entering the loop with the token already observed (snapshot taken)
returns the final text unchanged. -/
theorem loopAux_enter_aborted (env : AgentEnv) (native mss : Bool) (o : String) :
    ∀ (fuel : Nat) (st : LoopState) (s : String), st.snap = some s →
      abortedAt env.abortAt st.t = true →
      (loopAux env native mss o fuel st).out = .ret st.final st.meta ∧
      (loopAux env native mss o fuel st).snap = some s := by
  intro fuel st s hs hab
  cases fuel with
  | zero => exact ⟨rfl, hs⟩
  | succ f =>
    rw [loopAux]
    simp [hab, orElseOpt, hs]

theorem runBatch_ran_ms (o : String) (mss : Bool) (gen : String)
    (qe : String → QueryEnv) (m : List Citation) (c s : String)
    (h : runBatch o mss gen qe = .ran m c s) : matchAllSearch gen ≠ [] := by
  unfold runBatch at h
  by_cases hms : (matchAllSearch gen).length > 0
  · intro hnil
    rw [hnil] at hms
    simp at hms
  · rw [if_neg hms] at h
    exact absurd h (by simp)

/-- The central cancellation lemma: starting from a state with no snapshot
and satisfying the invariant, if the run records a cancellation snapshot `s`
(the value of `finalResponseText` at the first fired abort check), then the
`try` body ends either in a normal `return` whose text is exactly `s`, or in
a thrown `AbortError` whose recorded final text is exactly `s`. -/
theorem loopAux_snap_text (env : AgentEnv) (native mss : Bool) (o : String)
    (hnm : native = true → mss = true) :
    ∀ (fuel : Nat) (st : LoopState), INVP st → st.snap = none →
      ∀ s, (loopAux env native mss o fuel st).snap = some s →
        (∃ m, (loopAux env native mss o fuel st).out = .ret s m) ∨
        (loopAux env native mss o fuel st).out = .thr abortError s := by
  intro fuel
  induction fuel with
  | zero =>
    intro st hinv hsn s hs
    rw [loopAux, hsn] at hs
    exact absurd hs (by simp)
  | succ f ih =>
    intro st hinv hsn s hs
    by_cases hab : abortedAt env.abortAt st.t = true
    · have heq : loopAux env native mss o (f + 1) st =
          ⟨.ret st.final st.meta, st.t + 1, orElseOpt st.snap (some st.final),
            st.iters⟩ := by
        rw [loopAux, if_pos hab]
      rw [heq] at hs ⊢
      rw [hsn] at hs
      have hsf : st.final = s := by simpa [orElseOpt] using hs
      exact Or.inl ⟨st.meta, by rw [hsf]⟩
    · by_cases hn : native = true
      · -- native backend
        have hic : iterConsume env native st =
            consumeNative env.abortAt (env.streams st.iters).chunks
              (env.streams st.iters).err "" st.final st.meta (st.t + 1) none := by
          rw [iterConsume, if_pos hn, hsn]
        cases hcs : (iterConsume env native st).snap with
        | some s1 =>
          have hfacts := consumeNative_snap_none env.abortAt
            (env.streams st.iters).chunks (env.streams st.iters).err ""
            st.final st.meta (st.t + 1) s1 (by rw [← hic]; exact hcs)
          have hfin : (iterConsume env native st).final = s1 := by
            rw [hic]; exact hfacts.1
          have herr0 : (iterConsume env native st).err = none := by
            rw [hic]; exact hfacts.2.1
          have habt : abortedAt env.abortAt (iterConsume env native st).t = true := by
            rw [hic]; exact hfacts.2.2
          have hbatch : runBatch o mss (iterConsume env native st).gen
              (env.query st.iters) = .notRun := by
            rw [hnm hn]; exact runBatch_mss_true o _ _
          cases hr : routeAfterBatch (iterConsume env native st).gen st.fallbackCtx with
          | go a2 p2 =>
            have heq : loopAux env native mss o (f + 1) st =
                loopAux env native mss o f
                  { action := a2, prompt := p2,
                    final := (iterConsume env native st).final,
                    meta := (iterConsume env native st).meta,
                    fallbackCtx := st.fallbackCtx,
                    t := (iterConsume env native st).t,
                    snap := (iterConsume env native st).snap,
                    iters := st.iters + 1 } := by
              rw [loopAux, if_neg hab, herr0, hbatch, hr]
            rw [heq] at hs ⊢
            have hL1 := loopAux_enter_aborted env native mss o f
              { action := a2, prompt := p2,
                final := (iterConsume env native st).final,
                meta := (iterConsume env native st).meta,
                fallbackCtx := st.fallbackCtx,
                t := (iterConsume env native st).t,
                snap := (iterConsume env native st).snap,
                iters := st.iters + 1 } s1 hcs habt
            rw [hL1.2] at hs
            have hss : s1 = s := by simpa using hs
            refine Or.inl ⟨(iterConsume env native st).meta, ?_⟩
            rw [hL1.1]
            show BodyOut.ret (iterConsume env native st).final
              (iterConsume env native st).meta = _
            rw [hfin, hss]
          | done =>
            have heq : loopAux env native mss o (f + 1) st =
                ⟨.ret
                  (if jsTrim (iterConsume env native st).final = "" &&
                      st.fallbackCtx ≠ "" then st.fallbackCtx
                    else (iterConsume env native st).final)
                  (iterConsume env native st).meta,
                  (iterConsume env native st).t, (iterConsume env native st).snap,
                  st.iters + 1⟩ := by
              rw [loopAux, if_neg hab, herr0, hbatch, hr]
            rw [heq] at hs ⊢
            rw [hcs] at hs
            have hss : s1 = s := by simpa using hs
            have hcond : (decide (jsTrim (iterConsume env native st).final = "") &&
                decide (st.fallbackCtx ≠ "")) = false := by
              rcases consumeNative_extends env.abortAt (env.streams st.iters).chunks
                (env.streams st.iters).err "" st.final st.meta (st.t + 1) none
                with ⟨add, _, hext⟩
              rw [← hic] at hext
              by_cases hfb : st.fallbackCtx = ""
              · simp [hfb]
              · rcases hinv hfb with ⟨ch, hm, hw⟩
                have hm2 : ch ∈ (iterConsume env native st).final.data := by
                  rw [hext]
                  exact List.mem_append_left _ hm
                have := jsTrim_ne_empty _ ch hm2 hw
                simp [this]
            refine Or.inl ⟨(iterConsume env native st).meta, ?_⟩
            show BodyOut.ret _ _ = _
            rw [hcond]
            simp only [Bool.false_eq_true, if_false]
            rw [hfin, hss]
        | none =>
          cases herr2 : (iterConsume env native st).err with
          | some e =>
            have heq : loopAux env native mss o (f + 1) st =
                ⟨.thr e (iterConsume env native st).final,
                  (iterConsume env native st).t, (iterConsume env native st).snap,
                  st.iters + 1⟩ := by
              rw [loopAux, if_neg hab, herr2]
            rw [heq] at hs
            rw [hcs] at hs
            exact absurd hs (by simp)
          | none =>
            have hbatch : runBatch o mss (iterConsume env native st).gen
                (env.query st.iters) = .notRun := by
              rw [hnm hn]; exact runBatch_mss_true o _ _
            cases hr : routeAfterBatch (iterConsume env native st).gen st.fallbackCtx with
            | go a2 p2 =>
              have heq : loopAux env native mss o (f + 1) st =
                  loopAux env native mss o f
                    { action := a2, prompt := p2,
                      final := (iterConsume env native st).final,
                      meta := (iterConsume env native st).meta,
                      fallbackCtx := st.fallbackCtx,
                      t := (iterConsume env native st).t,
                      snap := (iterConsume env native st).snap,
                      iters := st.iters + 1 } := by
                rw [loopAux, if_neg hab, herr2, hbatch, hr]
              rw [heq] at hs ⊢
              refine ih _ ?_ hcs s hs
              intro hfb
              rcases hinv hfb with ⟨ch, hm, hw⟩
              rcases consumeNative_extends env.abortAt (env.streams st.iters).chunks
                (env.streams st.iters).err "" st.final st.meta (st.t + 1) none
                with ⟨add, _, hext⟩
              rw [← hic] at hext
              exact ⟨ch, by rw [hext]; exact List.mem_append_left _ hm, hw⟩
            | done =>
              have heq : loopAux env native mss o (f + 1) st =
                  ⟨.ret
                    (if jsTrim (iterConsume env native st).final = "" &&
                        st.fallbackCtx ≠ "" then st.fallbackCtx
                      else (iterConsume env native st).final)
                    (iterConsume env native st).meta,
                    (iterConsume env native st).t, (iterConsume env native st).snap,
                    st.iters + 1⟩ := by
                rw [loopAux, if_neg hab, herr2, hbatch, hr]
              rw [heq] at hs
              rw [hcs] at hs
              exact absurd hs (by simp)
      · -- OpenRouter backend
        have hn' : native = false := by simpa using hn
        have hic : iterConsume env native st =
            consumeOR env.abortAt ((env.streams st.iters).chunks.map NativeChunk.text)
              (env.streams st.iters).err "" st.final st.meta (st.t + 1) none := by
          rw [iterConsume, hn', hsn]
          simp
        cases hcs : (iterConsume env native st).snap with
        | some s1 =>
          have hfacts := consumeOR_snap_none env.abortAt
            ((env.streams st.iters).chunks.map NativeChunk.text)
            (env.streams st.iters).err "" st.final st.meta (st.t + 1) s1
            (by rw [← hic]; exact hcs)
          have hfin : (iterConsume env native st).final = s1 := by
            rw [hic]; exact hfacts.1
          have herrA : (iterConsume env native st).err = some abortError := by
            rw [hic]; exact hfacts.2
          have heq : loopAux env native mss o (f + 1) st =
              ⟨.thr abortError (iterConsume env native st).final,
                (iterConsume env native st).t, (iterConsume env native st).snap,
                st.iters + 1⟩ := by
            rw [loopAux, if_neg hab, herrA]
          rw [heq] at hs ⊢
          rw [hcs] at hs
          have hss : s1 = s := by simpa using hs
          refine Or.inr ?_
          show BodyOut.thr abortError (iterConsume env native st).final = _
          rw [hfin, hss]
        | none =>
          cases herr2 : (iterConsume env native st).err with
          | some e =>
            have heq : loopAux env native mss o (f + 1) st =
                ⟨.thr e (iterConsume env native st).final,
                  (iterConsume env native st).t, (iterConsume env native st).snap,
                  st.iters + 1⟩ := by
              rw [loopAux, if_neg hab, herr2]
            rw [heq] at hs
            rw [hcs] at hs
            exact absurd hs (by simp)
          | none =>
            cases hb : runBatch o mss (iterConsume env native st).gen
                (env.query st.iters) with
            | threw e2 =>
              have heq : loopAux env native mss o (f + 1) st =
                  ⟨.thr e2 (iterConsume env native st).final,
                    (iterConsume env native st).t, (iterConsume env native st).snap,
                    st.iters + 1⟩ := by
                rw [loopAux, if_neg hab, herr2, hb]
              rw [heq] at hs
              rw [hcs] at hs
              exact absurd hs (by simp)
            | ran bmeta ctx synth =>
              have heq : loopAux env native mss o (f + 1) st =
                  loopAux env native mss o f
                    { action := .SIMPLE, prompt := synth,
                      final := (iterConsume env native st).final,
                      meta := (iterConsume env native st).meta ++ bmeta,
                      fallbackCtx := ctx,
                      t := (iterConsume env native st).t,
                      snap := (iterConsume env native st).snap,
                      iters := st.iters + 1 } := by
                rw [loopAux, if_neg hab, herr2, hb]
              rw [heq] at hs ⊢
              refine ih _ ?_ hcs s hs
              intro _
              have hms := runBatch_ran_ms o mss (iterConsume env native st).gen
                (env.query st.iters) bmeta ctx synth hb
              have hlt := matchAll_ne_nil_lt_mem _ hms
              rcases consumeOR_extends env.abortAt
                ((env.streams st.iters).chunks.map NativeChunk.text)
                (env.streams st.iters).err "" st.final st.meta (st.t + 1) none
                with ⟨add, hgen, hext⟩
              rw [← hic] at hgen hext
              refine ⟨'<', ?_, by decide⟩
              rw [hext]
              rw [hgen] at hlt
              exact List.mem_append_right _ (by simpa using hlt)
            | notRun =>
              cases hr : routeAfterBatch (iterConsume env native st).gen
                  st.fallbackCtx with
              | go a2 p2 =>
                have heq : loopAux env native mss o (f + 1) st =
                    loopAux env native mss o f
                      { action := a2, prompt := p2,
                        final := (iterConsume env native st).final,
                        meta := (iterConsume env native st).meta,
                        fallbackCtx := st.fallbackCtx,
                        t := (iterConsume env native st).t,
                        snap := (iterConsume env native st).snap,
                        iters := st.iters + 1 } := by
                  rw [loopAux, if_neg hab, herr2, hb, hr]
                rw [heq] at hs ⊢
                refine ih _ ?_ hcs s hs
                intro hfb
                rcases hinv hfb with ⟨ch, hm, hw⟩
                rcases consumeOR_extends env.abortAt
                  ((env.streams st.iters).chunks.map NativeChunk.text)
                  (env.streams st.iters).err "" st.final st.meta (st.t + 1) none
                  with ⟨add, _, hext⟩
                rw [← hic] at hext
                exact ⟨ch, by rw [hext]; exact List.mem_append_left _ hm, hw⟩
              | done =>
                have heq : loopAux env native mss o (f + 1) st =
                    ⟨.ret
                      (if jsTrim (iterConsume env native st).final = "" &&
                          st.fallbackCtx ≠ "" then st.fallbackCtx
                        else (iterConsume env native st).final)
                      (iterConsume env native st).meta,
                      (iterConsume env native st).t, (iterConsume env native st).snap,
                      st.iters + 1⟩ := by
                  rw [loopAux, if_neg hab, herr2, hb, hr]
                rw [heq] at hs
                rw [hcs] at hs
                exact absurd hs (by simp)

theorem finishRun_snap (env : AgentEnv) (r : LoopRes) :
    (finishRun env r).snap = r.snap := by
  unfold finishRun
  cases r.out with
  | ret t m => rfl
  | thr e f => by_cases h : e.name = "AbortError" <;> simp [h]

/-- **C3.**  If the cancellation token fires during the (non-instant) run —
the run records a snapshot `s` of `finalResponseText` at the first fired
abort check — then `runAutonomousAgent` resolves with a successful result
(the main body never rejects: its `catch` converts everything), and the
result text equals exactly the accumulated text `s`, or the placeholder
`(Generation stopped by user)` when no text had accumulated. -/
theorem c3_cancel_partial_text :
    (∀ (env : AgentEnv) (model prompt : String) (a : RouterAction) (s : String),
      (runAgentMain env model prompt a).snap = some s →
      (runAgentMain env model prompt a).result.text = s ∨
        (s = "" ∧ (runAgentMain env model prompt a).result.text =
          "(Generation stopped by user)")) ∧
    (∀ (env : AgentEnv) (instant : Except JsError String) (input : AgentInput)
        (a : RouterAction),
      input.thinkingMode ≠ .instant →
      runAutonomousAgent env instant input a =
        .ok (runAgentMain env (resolveModel input) input.prompt a)) := by
  constructor
  · intro env model prompt a s hs
    unfold runAgentMain at hs ⊢
    rw [finishRun_snap] at hs
    have hdisj := loopAux_snap_text env (isGoogleModel model)
      (modelSupportsSearch model) prompt
      (fun h => by simp [modelSupportsSearch, h]) 6
      (initialState env model prompt a) (fun h => absurd rfl h) rfl s hs
    rcases hdisj with ⟨m, hout⟩ | hout
    · left
      unfold finishRun
      rw [hout]
    · by_cases hs0 : s = ""
      · right
        refine ⟨hs0, ?_⟩
        unfold finishRun
        rw [hout]
        simp [abortError, jsOr, hs0]
      · left
        unfold finishRun
        rw [hout]
        simp [abortError, jsOr, hs0]
  · intro env instant input a h
    unfold runAutonomousAgent
    rw [if_neg h]

/-- A query environment whose per-query try body threw. -/
def failedQuery : QueryEnv :=
  { failed := true, results := [], jina := fun _ => "", timedOut := false }

/-- A native run whose token fires after the first of two deltas. -/
def envC3 : AgentEnv :=
  { streams := fun _ => { chunks := [⟨"Hello", []⟩, ⟨"World", []⟩], err := none },
    query := fun _ _ => failedQuery,
    preResults := [], preJina := fun _ => "", preTimedOut := false,
    abortAt := some 2, cleanup := fun e => e.message }

/-- Witness for C3: cancelling after `Hello` but before `World` yields a
successful result whose text is exactly `Hello`. -/
theorem c3_cancel_partial_text_witness :
    (runAgentMain envC3 "gemini-2.5-flash" "hi" .SIMPLE).snap = some "Hello" ∧
    (runAgentMain envC3 "gemini-2.5-flash" "hi" .SIMPLE).result.text = "Hello" ∧
    runAutonomousAgent envC3 (.ok "unused")
      { prompt := "hi", model := "gemini-2.5-flash", thinkingMode := .normal }
      .SIMPLE = .ok (runAgentMain envC3 "gemini-2.5-flash" "hi" .SIMPLE) := by
  have h1 : (runAgentMain envC3 "gemini-2.5-flash" "hi" .SIMPLE).snap = some "Hello" := by
    decide
  refine ⟨h1, ?_, ?_⟩
  · rcases c3_cancel_partial_text.1 envC3 "gemini-2.5-flash" "hi" .SIMPLE "Hello" h1 with
      h | ⟨h0, _⟩
    · exact h
    · exact absurd h0 (by decide)
  · have hres : resolveModel
        { prompt := "hi", model := "gemini-2.5-flash", thinkingMode := .normal } =
        "gemini-2.5-flash" := by decide
    have := c3_cancel_partial_text.2 envC3 (.ok "unused")
      { prompt := "hi", model := "gemini-2.5-flash", thinkingMode := .normal }
      .SIMPLE (by decide)
    rw [hres] at this
    exact this

/-! ## Claim C9: top error boundary -/

/-- A quiet environment for the error-boundary claims. -/
def trivialEnv : AgentEnv :=
  { streams := fun _ => { chunks := [], err := none },
    query := fun _ _ => failedQuery,
    preResults := [], preJina := fun _ => "", preTimedOut := false,
    abortAt := none, cleanup := fun e => e.message }

/-- **C9** (amended).  Outside instant mode every run of
`runAutonomousAgent` resolves with a result (the `try`/`catch` of the main
body converts every fatal error); when the body ends in a thrown non-abort
error the result text is a single user-facing message prefixed
`An error occurred: `.  In instant mode, however, a failure of the free-LLM
call is rethrown as `Instant mode service unavailable.` — the one fatal
error the caller observes as a rejection. -/
theorem c9_error_boundary :
    (∀ (env : AgentEnv) (instant : Except JsError String) (input : AgentInput)
        (a : RouterAction), input.thinkingMode ≠ .instant →
      ∃ stats, runAutonomousAgent env instant input a = .ok stats) ∧
    (∀ (env : AgentEnv) (r : LoopRes) (e : JsError) (finalT : String),
      r.out = .thr e finalT → e.name ≠ "AbortError" →
      ∃ m, (finishRun env r).result.text = "An error occurred: " ++ m) ∧
    (∀ (env : AgentEnv) (instant : Except JsError String) (input : AgentInput)
        (a : RouterAction) (e : JsError),
      input.thinkingMode = .instant → instant = .error e →
      runAutonomousAgent env instant input a =
        .error { message := "Instant mode service unavailable." }) := by
  refine ⟨?_, ?_, ?_⟩
  · intro env instant input a h
    refine ⟨runAgentMain env (resolveModel input) input.prompt a, ?_⟩
    unfold runAutonomousAgent
    rw [if_neg h]
  · intro env r e finalT hout hname
    unfold finishRun
    rw [hout]
    simp only [hname, if_false]
    exact ⟨_, rfl⟩
  · intro env instant input a e h1 h2
    unfold runAutonomousAgent
    rw [if_pos h1, h2]

/-- Witness for C9 (amended): a normal-mode run resolves; a loop body that
threw `boom` finishes as an `An error occurred: ` message. -/
theorem c9_error_boundary_witness :
    (∃ stats, runAutonomousAgent trivialEnv (.ok "t")
      { prompt := "p", model := "gemini-2.5-flash", thinkingMode := .normal }
      .SIMPLE = .ok stats) ∧
    (∃ m, (finishRun trivialEnv
        ⟨.thr { message := "boom" } "partial", 0, none, 1⟩).result.text =
      "An error occurred: " ++ m) := by
  constructor
  · exact c9_error_boundary.1 trivialEnv (.ok "t")
      { prompt := "p", model := "gemini-2.5-flash", thinkingMode := .normal }
      .SIMPLE (by decide)
  · exact c9_error_boundary.2.1 trivialEnv
      ⟨.thr { message := "boom" } "partial", 0, none, 1⟩
      { message := "boom" } "partial" rfl (by decide)

/-- **C9 counterexample.**  In instant mode a failing free-LLM call is NOT
converted into a result message: `runAutonomousAgent` rejects with
`Instant mode service unavailable.` (agent lines 192-195), so not every
fatal error inside `runAutonomousAgent` is caught at the top boundary. -/
theorem c9_counterexample :
    runAutonomousAgent trivialEnv (.error { message := "network down" })
      { prompt := "p", model := "m", thinkingMode := .instant } .SIMPLE =
      .error { message := "Instant mode service unavailable." } := rfl

end BubbleAgent
